import Mathlib

/-!
Verification of the Diffie-Hellman exchange module of this repository
(`Source/charon/transforms/diffie_hellman.c`) and of the leak-detective
allocator (`Source/charon/utils/allocator.c`).

Chunks (`chunk_t`) are modelled as lists of natural numbers, one per byte,
and GMP arbitrary-precision integers (`mpz_t`) as natural numbers.  The
`gmp_helper` adapter and the randomizer are not part of the source files,
so their operations are modelled from the specification; every definition
doing so says it in its doc comment.  The `mpz_t` fields of the exchange
object that the source initializes lazily are modelled as `Option Nat`,
`none` meaning "not initialized".
-/

namespace DH

/-- A chunk: a byte buffer, one natural number per byte. -/
abbrev chunk_t := List Nat

/-- Modelled from the spec: `bytes_to_integer` of the big-integer adapter
(`gmp_helper`'s `chunk_to_mpz`, whose implementation is not among the
source files) interprets a chunk as a big-endian unsigned magnitude. -/
def bytes_to_integer (c : chunk_t) : Nat :=
  c.foldl (fun acc b => acc * 256 + b) 0

/-- Modelled from the spec: `integer_to_bytes` of the big-integer adapter
produces exactly `width` bytes, big-endian.  Byte `i` (from the most
significant end) of `x` is `x / 256 ^ (width - 1 - i) % 256`, which
left-zero-pads values whose natural encoding is shorter than `width`. -/
def integer_to_bytes (x : Nat) : Nat → chunk_t
  | 0 => []
  | w + 1 => (x / 256 ^ w % 256) :: integer_to_bytes x w

/-- Modelled from the spec: the external GMP capability `mpz_powm`
(`mod_pow` in the spec) computes `base ^ exponent mod modulus`. -/
def mod_pow (base exponent modulus : Nat) : Nat :=
  base ^ exponent % modulus

/-- Modelled from the spec: `gmp_helper`'s `chunk_to_mpz` (implementation
not among the source files) imports a chunk as a big-endian unsigned
integer. -/
def chunk_to_mpz (c : chunk_t) : Nat :=
  bytes_to_integer c

/-- Modelled from the spec: `gmp_helper`'s `mpz_to_chunk` (implementation
not among the source files) exports an integer as exactly `width` bytes,
big-endian, left-zero-padded, and fails if the integer's natural encoding
exceeds `width` bytes. -/
def mpz_to_chunk (value width : Nat) : Option chunk_t :=
  if value < 256 ^ width then some (integer_to_bytes value width) else none

/-- Modulus of Group 1 (MODP over 768 bits), as the byte array in the source. -/
def group1_modulus : chunk_t := [
  0xFF,0xFF,0xFF,0xFF,0xFF,0xFF,0xFF,0xFF,0xC9,0x0F,0xDA,0xA2,0x21,0x68,0xC2,0x34,
  0xC4,0xC6,0x62,0x8B,0x80,0xDC,0x1C,0xD1,0x29,0x02,0x4E,0x08,0x8A,0x67,0xCC,0x74,
  0x02,0x0B,0xBE,0xA6,0x3B,0x13,0x9B,0x22,0x51,0x4A,0x08,0x79,0x8E,0x34,0x04,0xDD,
  0xEF,0x95,0x19,0xB3,0xCD,0x3A,0x43,0x1B,0x30,0x2B,0x0A,0x6D,0xF2,0x5F,0x14,0x37,
  0x4F,0xE1,0x35,0x6D,0x6D,0x51,0xC2,0x45,0xE4,0x85,0xB5,0x76,0x62,0x5E,0x7E,0xC6,
  0xF4,0x4C,0x42,0xE9,0xA6,0x3A,0x36,0x20,0xFF,0xFF,0xFF,0xFF,0xFF,0xFF,0xFF,0xFF]

/-- Modulus of Group 2 (MODP over 1024 bits), as the byte array in the source. -/
def group2_modulus : chunk_t := [
  0xFF,0xFF,0xFF,0xFF,0xFF,0xFF,0xFF,0xFF,0xC9,0x0F,0xDA,0xA2,0x21,0x68,0xC2,0x34,
  0xC4,0xC6,0x62,0x8B,0x80,0xDC,0x1C,0xD1,0x29,0x02,0x4E,0x08,0x8A,0x67,0xCC,0x74,
  0x02,0x0B,0xBE,0xA6,0x3B,0x13,0x9B,0x22,0x51,0x4A,0x08,0x79,0x8E,0x34,0x04,0xDD,
  0xEF,0x95,0x19,0xB3,0xCD,0x3A,0x43,0x1B,0x30,0x2B,0x0A,0x6D,0xF2,0x5F,0x14,0x37,
  0x4F,0xE1,0x35,0x6D,0x6D,0x51,0xC2,0x45,0xE4,0x85,0xB5,0x76,0x62,0x5E,0x7E,0xC6,
  0xF4,0x4C,0x42,0xE9,0xA6,0x37,0xED,0x6B,0x0B,0xFF,0x5C,0xB6,0xF4,0x06,0xB7,0xED,
  0xEE,0x38,0x6B,0xFB,0x5A,0x89,0x9F,0xA5,0xAE,0x9F,0x24,0x11,0x7C,0x4B,0x1F,0xE6,
  0x49,0x28,0x66,0x51,0xEC,0xE6,0x53,0x81,0xFF,0xFF,0xFF,0xFF,0xFF,0xFF,0xFF,0xFF]

/-- Modulus of Group 5 (MODP over 1536 bits), as the byte array in the source. -/
def group5_modulus : chunk_t := [
  0xFF,0xFF,0xFF,0xFF,0xFF,0xFF,0xFF,0xFF,0xC9,0x0F,0xDA,0xA2,0x21,0x68,0xC2,0x34,
  0xC4,0xC6,0x62,0x8B,0x80,0xDC,0x1C,0xD1,0x29,0x02,0x4E,0x08,0x8A,0x67,0xCC,0x74,
  0x02,0x0B,0xBE,0xA6,0x3B,0x13,0x9B,0x22,0x51,0x4A,0x08,0x79,0x8E,0x34,0x04,0xDD,
  0xEF,0x95,0x19,0xB3,0xCD,0x3A,0x43,0x1B,0x30,0x2B,0x0A,0x6D,0xF2,0x5F,0x14,0x37,
  0x4F,0xE1,0x35,0x6D,0x6D,0x51,0xC2,0x45,0xE4,0x85,0xB5,0x76,0x62,0x5E,0x7E,0xC6,
  0xF4,0x4C,0x42,0xE9,0xA6,0x37,0xED,0x6B,0x0B,0xFF,0x5C,0xB6,0xF4,0x06,0xB7,0xED,
  0xEE,0x38,0x6B,0xFB,0x5A,0x89,0x9F,0xA5,0xAE,0x9F,0x24,0x11,0x7C,0x4B,0x1F,0xE6,
  0x49,0x28,0x66,0x51,0xEC,0xE4,0x5B,0x3D,0xC2,0x00,0x7C,0xB8,0xA1,0x63,0xBF,0x05,
  0x98,0xDA,0x48,0x36,0x1C,0x55,0xD3,0x9A,0x69,0x16,0x3F,0xA8,0xFD,0x24,0xCF,0x5F,
  0x83,0x65,0x5D,0x23,0xDC,0xA3,0xAD,0x96,0x1C,0x62,0xF3,0x56,0x20,0x85,0x52,0xBB,
  0x9E,0xD5,0x29,0x07,0x70,0x96,0x96,0x6D,0x67,0x0C,0x35,0x4E,0x4A,0xBC,0x98,0x04,
  0xF1,0x74,0x6C,0x08,0xCA,0x23,0x73,0x27,0xFF,0xFF,0xFF,0xFF,0xFF,0xFF,0xFF,0xFF]

/-- Modulus of Group 14 (MODP over 2048 bits), as the byte array in the source. -/
def group14_modulus : chunk_t := [
  0xFF,0xFF,0xFF,0xFF,0xFF,0xFF,0xFF,0xFF,0xC9,0x0F,0xDA,0xA2,0x21,0x68,0xC2,0x34,
  0xC4,0xC6,0x62,0x8B,0x80,0xDC,0x1C,0xD1,0x29,0x02,0x4E,0x08,0x8A,0x67,0xCC,0x74,
  0x02,0x0B,0xBE,0xA6,0x3B,0x13,0x9B,0x22,0x51,0x4A,0x08,0x79,0x8E,0x34,0x04,0xDD,
  0xEF,0x95,0x19,0xB3,0xCD,0x3A,0x43,0x1B,0x30,0x2B,0x0A,0x6D,0xF2,0x5F,0x14,0x37,
  0x4F,0xE1,0x35,0x6D,0x6D,0x51,0xC2,0x45,0xE4,0x85,0xB5,0x76,0x62,0x5E,0x7E,0xC6,
  0xF4,0x4C,0x42,0xE9,0xA6,0x37,0xED,0x6B,0x0B,0xFF,0x5C,0xB6,0xF4,0x06,0xB7,0xED,
  0xEE,0x38,0x6B,0xFB,0x5A,0x89,0x9F,0xA5,0xAE,0x9F,0x24,0x11,0x7C,0x4B,0x1F,0xE6,
  0x49,0x28,0x66,0x51,0xEC,0xE4,0x5B,0x3D,0xC2,0x00,0x7C,0xB8,0xA1,0x63,0xBF,0x05,
  0x98,0xDA,0x48,0x36,0x1C,0x55,0xD3,0x9A,0x69,0x16,0x3F,0xA8,0xFD,0x24,0xCF,0x5F,
  0x83,0x65,0x5D,0x23,0xDC,0xA3,0xAD,0x96,0x1C,0x62,0xF3,0x56,0x20,0x85,0x52,0xBB,
  0x9E,0xD5,0x29,0x07,0x70,0x96,0x96,0x6D,0x67,0x0C,0x35,0x4E,0x4A,0xBC,0x98,0x04,
  0xF1,0x74,0x6C,0x08,0xCA,0x18,0x21,0x7C,0x32,0x90,0x5E,0x46,0x2E,0x36,0xCE,0x3B,
  0xE3,0x9E,0x77,0x2C,0x18,0x0E,0x86,0x03,0x9B,0x27,0x83,0xA2,0xEC,0x07,0xA2,0x8F,
  0xB5,0xC5,0x5D,0xF0,0x6F,0x4C,0x52,0xC9,0xDE,0x2B,0xCB,0xF6,0x95,0x58,0x17,0x18,
  0x39,0x95,0x49,0x7C,0xEA,0x95,0x6A,0xE5,0x15,0xD2,0x26,0x18,0x98,0xFA,0x05,0x10,
  0x15,0x72,0x8E,0x5A,0x8A,0xAC,0xAA,0x68,0xFF,0xFF,0xFF,0xFF,0xFF,0xFF,0xFF,0xFF]

/-- Modulus of Group 15 (MODP over 3072 bits), as the byte array in the source. -/
def group15_modulus : chunk_t := [
  0xFF,0xFF,0xFF,0xFF,0xFF,0xFF,0xFF,0xFF,0xC9,0x0F,0xDA,0xA2,0x21,0x68,0xC2,0x34,
  0xC4,0xC6,0x62,0x8B,0x80,0xDC,0x1C,0xD1,0x29,0x02,0x4E,0x08,0x8A,0x67,0xCC,0x74,
  0x02,0x0B,0xBE,0xA6,0x3B,0x13,0x9B,0x22,0x51,0x4A,0x08,0x79,0x8E,0x34,0x04,0xDD,
  0xEF,0x95,0x19,0xB3,0xCD,0x3A,0x43,0x1B,0x30,0x2B,0x0A,0x6D,0xF2,0x5F,0x14,0x37,
  0x4F,0xE1,0x35,0x6D,0x6D,0x51,0xC2,0x45,0xE4,0x85,0xB5,0x76,0x62,0x5E,0x7E,0xC6,
  0xF4,0x4C,0x42,0xE9,0xA6,0x37,0xED,0x6B,0x0B,0xFF,0x5C,0xB6,0xF4,0x06,0xB7,0xED,
  0xEE,0x38,0x6B,0xFB,0x5A,0x89,0x9F,0xA5,0xAE,0x9F,0x24,0x11,0x7C,0x4B,0x1F,0xE6,
  0x49,0x28,0x66,0x51,0xEC,0xE4,0x5B,0x3D,0xC2,0x00,0x7C,0xB8,0xA1,0x63,0xBF,0x05,
  0x98,0xDA,0x48,0x36,0x1C,0x55,0xD3,0x9A,0x69,0x16,0x3F,0xA8,0xFD,0x24,0xCF,0x5F,
  0x83,0x65,0x5D,0x23,0xDC,0xA3,0xAD,0x96,0x1C,0x62,0xF3,0x56,0x20,0x85,0x52,0xBB,
  0x9E,0xD5,0x29,0x07,0x70,0x96,0x96,0x6D,0x67,0x0C,0x35,0x4E,0x4A,0xBC,0x98,0x04,
  0xF1,0x74,0x6C,0x08,0xCA,0x18,0x21,0x7C,0x32,0x90,0x5E,0x46,0x2E,0x36,0xCE,0x3B,
  0xE3,0x9E,0x77,0x2C,0x18,0x0E,0x86,0x03,0x9B,0x27,0x83,0xA2,0xEC,0x07,0xA2,0x8F,
  0xB5,0xC5,0x5D,0xF0,0x6F,0x4C,0x52,0xC9,0xDE,0x2B,0xCB,0xF6,0x95,0x58,0x17,0x18,
  0x39,0x95,0x49,0x7C,0xEA,0x95,0x6A,0xE5,0x15,0xD2,0x26,0x18,0x98,0xFA,0x05,0x10,
  0x15,0x72,0x8E,0x5A,0x8A,0xAA,0xC4,0x2D,0xAD,0x33,0x17,0x0D,0x04,0x50,0x7A,0x33,
  0xA8,0x55,0x21,0xAB,0xDF,0x1C,0xBA,0x64,0xEC,0xFB,0x85,0x04,0x58,0xDB,0xEF,0x0A,
  0x8A,0xEA,0x71,0x57,0x5D,0x06,0x0C,0x7D,0xB3,0x97,0x0F,0x85,0xA6,0xE1,0xE4,0xC7,
  0xAB,0xF5,0xAE,0x8C,0xDB,0x09,0x33,0xD7,0x1E,0x8C,0x94,0xE0,0x4A,0x25,0x61,0x9D,
  0xCE,0xE3,0xD2,0x26,0x1A,0xD2,0xEE,0x6B,0xF1,0x2F,0xFA,0x06,0xD9,0x8A,0x08,0x64,
  0xD8,0x76,0x02,0x73,0x3E,0xC8,0x6A,0x64,0x52,0x1F,0x2B,0x18,0x17,0x7B,0x20,0x0C,
  0xBB,0xE1,0x17,0x57,0x7A,0x61,0x5D,0x6C,0x77,0x09,0x88,0xC0,0xBA,0xD9,0x46,0xE2,
  0x08,0xE2,0x4F,0xA0,0x74,0xE5,0xAB,0x31,0x43,0xDB,0x5B,0xFC,0xE0,0xFD,0x10,0x8E,
  0x4B,0x82,0xD1,0x20,0xA9,0x3A,0xD2,0xCA,0xFF,0xFF,0xFF,0xFF,0xFF,0xFF,0xFF,0xFF]

/-- Modulus of Group 16 (MODP over 4096 bits), as the byte array in the source. -/
def group16_modulus : chunk_t := [
  0xFF,0xFF,0xFF,0xFF,0xFF,0xFF,0xFF,0xFF,0xC9,0x0F,0xDA,0xA2,0x21,0x68,0xC2,0x34,
  0xC4,0xC6,0x62,0x8B,0x80,0xDC,0x1C,0xD1,0x29,0x02,0x4E,0x08,0x8A,0x67,0xCC,0x74,
  0x02,0x0B,0xBE,0xA6,0x3B,0x13,0x9B,0x22,0x51,0x4A,0x08,0x79,0x8E,0x34,0x04,0xDD,
  0xEF,0x95,0x19,0xB3,0xCD,0x3A,0x43,0x1B,0x30,0x2B,0x0A,0x6D,0xF2,0x5F,0x14,0x37,
  0x4F,0xE1,0x35,0x6D,0x6D,0x51,0xC2,0x45,0xE4,0x85,0xB5,0x76,0x62,0x5E,0x7E,0xC6,
  0xF4,0x4C,0x42,0xE9,0xA6,0x37,0xED,0x6B,0x0B,0xFF,0x5C,0xB6,0xF4,0x06,0xB7,0xED,
  0xEE,0x38,0x6B,0xFB,0x5A,0x89,0x9F,0xA5,0xAE,0x9F,0x24,0x11,0x7C,0x4B,0x1F,0xE6,
  0x49,0x28,0x66,0x51,0xEC,0xE4,0x5B,0x3D,0xC2,0x00,0x7C,0xB8,0xA1,0x63,0xBF,0x05,
  0x98,0xDA,0x48,0x36,0x1C,0x55,0xD3,0x9A,0x69,0x16,0x3F,0xA8,0xFD,0x24,0xCF,0x5F,
  0x83,0x65,0x5D,0x23,0xDC,0xA3,0xAD,0x96,0x1C,0x62,0xF3,0x56,0x20,0x85,0x52,0xBB,
  0x9E,0xD5,0x29,0x07,0x70,0x96,0x96,0x6D,0x67,0x0C,0x35,0x4E,0x4A,0xBC,0x98,0x04,
  0xF1,0x74,0x6C,0x08,0xCA,0x18,0x21,0x7C,0x32,0x90,0x5E,0x46,0x2E,0x36,0xCE,0x3B,
  0xE3,0x9E,0x77,0x2C,0x18,0x0E,0x86,0x03,0x9B,0x27,0x83,0xA2,0xEC,0x07,0xA2,0x8F,
  0xB5,0xC5,0x5D,0xF0,0x6F,0x4C,0x52,0xC9,0xDE,0x2B,0xCB,0xF6,0x95,0x58,0x17,0x18,
  0x39,0x95,0x49,0x7C,0xEA,0x95,0x6A,0xE5,0x15,0xD2,0x26,0x18,0x98,0xFA,0x05,0x10,
  0x15,0x72,0x8E,0x5A,0x8A,0xAA,0xC4,0x2D,0xAD,0x33,0x17,0x0D,0x04,0x50,0x7A,0x33,
  0xA8,0x55,0x21,0xAB,0xDF,0x1C,0xBA,0x64,0xEC,0xFB,0x85,0x04,0x58,0xDB,0xEF,0x0A,
  0x8A,0xEA,0x71,0x57,0x5D,0x06,0x0C,0x7D,0xB3,0x97,0x0F,0x85,0xA6,0xE1,0xE4,0xC7,
  0xAB,0xF5,0xAE,0x8C,0xDB,0x09,0x33,0xD7,0x1E,0x8C,0x94,0xE0,0x4A,0x25,0x61,0x9D,
  0xCE,0xE3,0xD2,0x26,0x1A,0xD2,0xEE,0x6B,0xF1,0x2F,0xFA,0x06,0xD9,0x8A,0x08,0x64,
  0xD8,0x76,0x02,0x73,0x3E,0xC8,0x6A,0x64,0x52,0x1F,0x2B,0x18,0x17,0x7B,0x20,0x0C,
  0xBB,0xE1,0x17,0x57,0x7A,0x61,0x5D,0x6C,0x77,0x09,0x88,0xC0,0xBA,0xD9,0x46,0xE2,
  0x08,0xE2,0x4F,0xA0,0x74,0xE5,0xAB,0x31,0x43,0xDB,0x5B,0xFC,0xE0,0xFD,0x10,0x8E,
  0x4B,0x82,0xD1,0x20,0xA9,0x21,0x08,0x01,0x1A,0x72,0x3C,0x12,0xA7,0x87,0xE6,0xD7,
  0x88,0x71,0x9A,0x10,0xBD,0xBA,0x5B,0x26,0x99,0xC3,0x27,0x18,0x6A,0xF4,0xE2,0x3C,
  0x1A,0x94,0x68,0x34,0xB6,0x15,0x0B,0xDA,0x25,0x83,0xE9,0xCA,0x2A,0xD4,0x4C,0xE8,
  0xDB,0xBB,0xC2,0xDB,0x04,0xDE,0x8E,0xF9,0x2E,0x8E,0xFC,0x14,0x1F,0xBE,0xCA,0xA6,
  0x28,0x7C,0x59,0x47,0x4E,0x6B,0xC0,0x5D,0x99,0xB2,0x96,0x4F,0xA0,0x90,0xC3,0xA2,
  0x23,0x3B,0xA1,0x86,0x51,0x5B,0xE7,0xED,0x1F,0x61,0x29,0x70,0xCE,0xE2,0xD7,0xAF,
  0xB8,0x1B,0xDD,0x76,0x21,0x70,0x48,0x1C,0xD0,0x06,0x91,0x27,0xD5,0xB0,0x5A,0xA9,
  0x93,0xB4,0xEA,0x98,0x8D,0x8F,0xDD,0xC1,0x86,0xFF,0xB7,0xDC,0x90,0xA6,0xC0,0x8F,
  0x4D,0xF4,0x35,0xC9,0x34,0x06,0x31,0x99,0xFF,0xFF,0xFF,0xFF,0xFF,0xFF,0xFF,0xFF]

/-- Modulus of Group 17 (MODP over 6144 bits), as the byte array in the source. -/
def group17_modulus : chunk_t := [
  0xFF,0xFF,0xFF,0xFF,0xFF,0xFF,0xFF,0xFF,0xC9,0x0F,0xDA,0xA2,0x21,0x68,0xC2,0x34,
  0xC4,0xC6,0x62,0x8B,0x80,0xDC,0x1C,0xD1,0x29,0x02,0x4E,0x08,0x8A,0x67,0xCC,0x74,
  0x02,0x0B,0xBE,0xA6,0x3B,0x13,0x9B,0x22,0x51,0x4A,0x08,0x79,0x8E,0x34,0x04,0xDD,
  0xEF,0x95,0x19,0xB3,0xCD,0x3A,0x43,0x1B,0x30,0x2B,0x0A,0x6D,0xF2,0x5F,0x14,0x37,
  0x4F,0xE1,0x35,0x6D,0x6D,0x51,0xC2,0x45,0xE4,0x85,0xB5,0x76,0x62,0x5E,0x7E,0xC6,
  0xF4,0x4C,0x42,0xE9,0xA6,0x37,0xED,0x6B,0x0B,0xFF,0x5C,0xB6,0xF4,0x06,0xB7,0xED,
  0xEE,0x38,0x6B,0xFB,0x5A,0x89,0x9F,0xA5,0xAE,0x9F,0x24,0x11,0x7C,0x4B,0x1F,0xE6,
  0x49,0x28,0x66,0x51,0xEC,0xE4,0x5B,0x3D,0xC2,0x00,0x7C,0xB8,0xA1,0x63,0xBF,0x05,
  0x98,0xDA,0x48,0x36,0x1C,0x55,0xD3,0x9A,0x69,0x16,0x3F,0xA8,0xFD,0x24,0xCF,0x5F,
  0x83,0x65,0x5D,0x23,0xDC,0xA3,0xAD,0x96,0x1C,0x62,0xF3,0x56,0x20,0x85,0x52,0xBB,
  0x9E,0xD5,0x29,0x07,0x70,0x96,0x96,0x6D,0x67,0x0C,0x35,0x4E,0x4A,0xBC,0x98,0x04,
  0xF1,0x74,0x6C,0x08,0xCA,0x18,0x21,0x7C,0x32,0x90,0x5E,0x46,0x2E,0x36,0xCE,0x3B,
  0xE3,0x9E,0x77,0x2C,0x18,0x0E,0x86,0x03,0x9B,0x27,0x83,0xA2,0xEC,0x07,0xA2,0x8F,
  0xB5,0xC5,0x5D,0xF0,0x6F,0x4C,0x52,0xC9,0xDE,0x2B,0xCB,0xF6,0x95,0x58,0x17,0x18,
  0x39,0x95,0x49,0x7C,0xEA,0x95,0x6A,0xE5,0x15,0xD2,0x26,0x18,0x98,0xFA,0x05,0x10,
  0x15,0x72,0x8E,0x5A,0x8A,0xAA,0xC4,0x2D,0xAD,0x33,0x17,0x0D,0x04,0x50,0x7A,0x33,
  0xA8,0x55,0x21,0xAB,0xDF,0x1C,0xBA,0x64,0xEC,0xFB,0x85,0x04,0x58,0xDB,0xEF,0x0A,
  0x8A,0xEA,0x71,0x57,0x5D,0x06,0x0C,0x7D,0xB3,0x97,0x0F,0x85,0xA6,0xE1,0xE4,0xC7,
  0xAB,0xF5,0xAE,0x8C,0xDB,0x09,0x33,0xD7,0x1E,0x8C,0x94,0xE0,0x4A,0x25,0x61,0x9D,
  0xCE,0xE3,0xD2,0x26,0x1A,0xD2,0xEE,0x6B,0xF1,0x2F,0xFA,0x06,0xD9,0x8A,0x08,0x64,
  0xD8,0x76,0x02,0x73,0x3E,0xC8,0x6A,0x64,0x52,0x1F,0x2B,0x18,0x17,0x7B,0x20,0x0C,
  0xBB,0xE1,0x17,0x57,0x7A,0x61,0x5D,0x6C,0x77,0x09,0x88,0xC0,0xBA,0xD9,0x46,0xE2,
  0x08,0xE2,0x4F,0xA0,0x74,0xE5,0xAB,0x31,0x43,0xDB,0x5B,0xFC,0xE0,0xFD,0x10,0x8E,
  0x4B,0x82,0xD1,0x20,0xA9,0x21,0x08,0x01,0x1A,0x72,0x3C,0x12,0xA7,0x87,0xE6,0xD7,
  0x88,0x71,0x9A,0x10,0xBD,0xBA,0x5B,0x26,0x99,0xC3,0x27,0x18,0x6A,0xF4,0xE2,0x3C,
  0x1A,0x94,0x68,0x34,0xB6,0x15,0x0B,0xDA,0x25,0x83,0xE9,0xCA,0x2A,0xD4,0x4C,0xE8,
  0xDB,0xBB,0xC2,0xDB,0x04,0xDE,0x8E,0xF9,0x2E,0x8E,0xFC,0x14,0x1F,0xBE,0xCA,0xA6,
  0x28,0x7C,0x59,0x47,0x4E,0x6B,0xC0,0x5D,0x99,0xB2,0x96,0x4F,0xA0,0x90,0xC3,0xA2,
  0x23,0x3B,0xA1,0x86,0x51,0x5B,0xE7,0xED,0x1F,0x61,0x29,0x70,0xCE,0xE2,0xD7,0xAF,
  0xB8,0x1B,0xDD,0x76,0x21,0x70,0x48,0x1C,0xD0,0x06,0x91,0x27,0xD5,0xB0,0x5A,0xA9,
  0x93,0xB4,0xEA,0x98,0x8D,0x8F,0xDD,0xC1,0x86,0xFF,0xB7,0xDC,0x90,0xA6,0xC0,0x8F,
  0x4D,0xF4,0x35,0xC9,0x34,0x02,0x84,0x92,0x36,0xC3,0xFA,0xB4,0xD2,0x7C,0x70,0x26,
  0xC1,0xD4,0xDC,0xB2,0x60,0x26,0x46,0xDE,0xC9,0x75,0x1E,0x76,0x3D,0xBA,0x37,0xBD,
  0xF8,0xFF,0x94,0x06,0xAD,0x9E,0x53,0x0E,0xE5,0xDB,0x38,0x2F,0x41,0x30,0x01,0xAE,
  0xB0,0x6A,0x53,0xED,0x90,0x27,0xD8,0x31,0x17,0x97,0x27,0xB0,0x86,0x5A,0x89,0x18,
  0xDA,0x3E,0xDB,0xEB,0xCF,0x9B,0x14,0xED,0x44,0xCE,0x6C,0xBA,0xCE,0xD4,0xBB,0x1B,
  0xDB,0x7F,0x14,0x47,0xE6,0xCC,0x25,0x4B,0x33,0x20,0x51,0x51,0x2B,0xD7,0xAF,0x42,
  0x6F,0xB8,0xF4,0x01,0x37,0x8C,0xD2,0xBF,0x59,0x83,0xCA,0x01,0xC6,0x4B,0x92,0xEC,
  0xF0,0x32,0xEA,0x15,0xD1,0x72,0x1D,0x03,0xF4,0x82,0xD7,0xCE,0x6E,0x74,0xFE,0xF6,
  0xD5,0x5E,0x70,0x2F,0x46,0x98,0x0C,0x82,0xB5,0xA8,0x40,0x31,0x90,0x0B,0x1C,0x9E,
  0x59,0xE7,0xC9,0x7F,0xBE,0xC7,0xE8,0xF3,0x23,0xA9,0x7A,0x7E,0x36,0xCC,0x88,0xBE,
  0x0F,0x1D,0x45,0xB7,0xFF,0x58,0x5A,0xC5,0x4B,0xD4,0x07,0xB2,0x2B,0x41,0x54,0xAA,
  0xCC,0x8F,0x6D,0x7E,0xBF,0x48,0xE1,0xD8,0x14,0xCC,0x5E,0xD2,0x0F,0x80,0x37,0xE0,
  0xA7,0x97,0x15,0xEE,0xF2,0x9B,0xE3,0x28,0x06,0xA1,0xD5,0x8B,0xB7,0xC5,0xDA,0x76,
  0xF5,0x50,0xAA,0x3D,0x8A,0x1F,0xBF,0xF0,0xEB,0x19,0xCC,0xB1,0xA3,0x13,0xD5,0x5C,
  0xDA,0x56,0xC9,0xEC,0x2E,0xF2,0x96,0x32,0x38,0x7F,0xE8,0xD7,0x6E,0x3C,0x04,0x68,
  0x04,0x3E,0x8F,0x66,0x3F,0x48,0x60,0xEE,0x12,0xBF,0x2D,0x5B,0x0B,0x74,0x74,0xD6,
  0xE6,0x94,0xF9,0x1E,0x6D,0xCC,0x40,0x24,0xFF,0xFF,0xFF,0xFF,0xFF,0xFF,0xFF,0xFF]

/-- Modulus of Group 18 (MODP over 8192 bits), as the byte array in the source. -/
def group18_modulus : chunk_t := [
  0xFF,0xFF,0xFF,0xFF,0xFF,0xFF,0xFF,0xFF,0xC9,0x0F,0xDA,0xA2,0x21,0x68,0xC2,0x34,
  0xC4,0xC6,0x62,0x8B,0x80,0xDC,0x1C,0xD1,0x29,0x02,0x4E,0x08,0x8A,0x67,0xCC,0x74,
  0x02,0x0B,0xBE,0xA6,0x3B,0x13,0x9B,0x22,0x51,0x4A,0x08,0x79,0x8E,0x34,0x04,0xDD,
  0xEF,0x95,0x19,0xB3,0xCD,0x3A,0x43,0x1B,0x30,0x2B,0x0A,0x6D,0xF2,0x5F,0x14,0x37,
  0x4F,0xE1,0x35,0x6D,0x6D,0x51,0xC2,0x45,0xE4,0x85,0xB5,0x76,0x62,0x5E,0x7E,0xC6,
  0xF4,0x4C,0x42,0xE9,0xA6,0x37,0xED,0x6B,0x0B,0xFF,0x5C,0xB6,0xF4,0x06,0xB7,0xED,
  0xEE,0x38,0x6B,0xFB,0x5A,0x89,0x9F,0xA5,0xAE,0x9F,0x24,0x11,0x7C,0x4B,0x1F,0xE6,
  0x49,0x28,0x66,0x51,0xEC,0xE4,0x5B,0x3D,0xC2,0x00,0x7C,0xB8,0xA1,0x63,0xBF,0x05,
  0x98,0xDA,0x48,0x36,0x1C,0x55,0xD3,0x9A,0x69,0x16,0x3F,0xA8,0xFD,0x24,0xCF,0x5F,
  0x83,0x65,0x5D,0x23,0xDC,0xA3,0xAD,0x96,0x1C,0x62,0xF3,0x56,0x20,0x85,0x52,0xBB,
  0x9E,0xD5,0x29,0x07,0x70,0x96,0x96,0x6D,0x67,0x0C,0x35,0x4E,0x4A,0xBC,0x98,0x04,
  0xF1,0x74,0x6C,0x08,0xCA,0x18,0x21,0x7C,0x32,0x90,0x5E,0x46,0x2E,0x36,0xCE,0x3B,
  0xE3,0x9E,0x77,0x2C,0x18,0x0E,0x86,0x03,0x9B,0x27,0x83,0xA2,0xEC,0x07,0xA2,0x8F,
  0xB5,0xC5,0x5D,0xF0,0x6F,0x4C,0x52,0xC9,0xDE,0x2B,0xCB,0xF6,0x95,0x58,0x17,0x18,
  0x39,0x95,0x49,0x7C,0xEA,0x95,0x6A,0xE5,0x15,0xD2,0x26,0x18,0x98,0xFA,0x05,0x10,
  0x15,0x72,0x8E,0x5A,0x8A,0xAA,0xC4,0x2D,0xAD,0x33,0x17,0x0D,0x04,0x50,0x7A,0x33,
  0xA8,0x55,0x21,0xAB,0xDF,0x1C,0xBA,0x64,0xEC,0xFB,0x85,0x04,0x58,0xDB,0xEF,0x0A,
  0x8A,0xEA,0x71,0x57,0x5D,0x06,0x0C,0x7D,0xB3,0x97,0x0F,0x85,0xA6,0xE1,0xE4,0xC7,
  0xAB,0xF5,0xAE,0x8C,0xDB,0x09,0x33,0xD7,0x1E,0x8C,0x94,0xE0,0x4A,0x25,0x61,0x9D,
  0xCE,0xE3,0xD2,0x26,0x1A,0xD2,0xEE,0x6B,0xF1,0x2F,0xFA,0x06,0xD9,0x8A,0x08,0x64,
  0xD8,0x76,0x02,0x73,0x3E,0xC8,0x6A,0x64,0x52,0x1F,0x2B,0x18,0x17,0x7B,0x20,0x0C,
  0xBB,0xE1,0x17,0x57,0x7A,0x61,0x5D,0x6C,0x77,0x09,0x88,0xC0,0xBA,0xD9,0x46,0xE2,
  0x08,0xE2,0x4F,0xA0,0x74,0xE5,0xAB,0x31,0x43,0xDB,0x5B,0xFC,0xE0,0xFD,0x10,0x8E,
  0x4B,0x82,0xD1,0x20,0xA9,0x21,0x08,0x01,0x1A,0x72,0x3C,0x12,0xA7,0x87,0xE6,0xD7,
  0x88,0x71,0x9A,0x10,0xBD,0xBA,0x5B,0x26,0x99,0xC3,0x27,0x18,0x6A,0xF4,0xE2,0x3C,
  0x1A,0x94,0x68,0x34,0xB6,0x15,0x0B,0xDA,0x25,0x83,0xE9,0xCA,0x2A,0xD4,0x4C,0xE8,
  0xDB,0xBB,0xC2,0xDB,0x04,0xDE,0x8E,0xF9,0x2E,0x8E,0xFC,0x14,0x1F,0xBE,0xCA,0xA6,
  0x28,0x7C,0x59,0x47,0x4E,0x6B,0xC0,0x5D,0x99,0xB2,0x96,0x4F,0xA0,0x90,0xC3,0xA2,
  0x23,0x3B,0xA1,0x86,0x51,0x5B,0xE7,0xED,0x1F,0x61,0x29,0x70,0xCE,0xE2,0xD7,0xAF,
  0xB8,0x1B,0xDD,0x76,0x21,0x70,0x48,0x1C,0xD0,0x06,0x91,0x27,0xD5,0xB0,0x5A,0xA9,
  0x93,0xB4,0xEA,0x98,0x8D,0x8F,0xDD,0xC1,0x86,0xFF,0xB7,0xDC,0x90,0xA6,0xC0,0x8F,
  0x4D,0xF4,0x35,0xC9,0x34,0x02,0x84,0x92,0x36,0xC3,0xFA,0xB4,0xD2,0x7C,0x70,0x26,
  0xC1,0xD4,0xDC,0xB2,0x60,0x26,0x46,0xDE,0xC9,0x75,0x1E,0x76,0x3D,0xBA,0x37,0xBD,
  0xF8,0xFF,0x94,0x06,0xAD,0x9E,0x53,0x0E,0xE5,0xDB,0x38,0x2F,0x41,0x30,0x01,0xAE,
  0xB0,0x6A,0x53,0xED,0x90,0x27,0xD8,0x31,0x17,0x97,0x27,0xB0,0x86,0x5A,0x89,0x18,
  0xDA,0x3E,0xDB,0xEB,0xCF,0x9B,0x14,0xED,0x44,0xCE,0x6C,0xBA,0xCE,0xD4,0xBB,0x1B,
  0xDB,0x7F,0x14,0x47,0xE6,0xCC,0x25,0x4B,0x33,0x20,0x51,0x51,0x2B,0xD7,0xAF,0x42,
  0x6F,0xB8,0xF4,0x01,0x37,0x8C,0xD2,0xBF,0x59,0x83,0xCA,0x01,0xC6,0x4B,0x92,0xEC,
  0xF0,0x32,0xEA,0x15,0xD1,0x72,0x1D,0x03,0xF4,0x82,0xD7,0xCE,0x6E,0x74,0xFE,0xF6,
  0xD5,0x5E,0x70,0x2F,0x46,0x98,0x0C,0x82,0xB5,0xA8,0x40,0x31,0x90,0x0B,0x1C,0x9E,
  0x59,0xE7,0xC9,0x7F,0xBE,0xC7,0xE8,0xF3,0x23,0xA9,0x7A,0x7E,0x36,0xCC,0x88,0xBE,
  0x0F,0x1D,0x45,0xB7,0xFF,0x58,0x5A,0xC5,0x4B,0xD4,0x07,0xB2,0x2B,0x41,0x54,0xAA,
  0xCC,0x8F,0x6D,0x7E,0xBF,0x48,0xE1,0xD8,0x14,0xCC,0x5E,0xD2,0x0F,0x80,0x37,0xE0,
  0xA7,0x97,0x15,0xEE,0xF2,0x9B,0xE3,0x28,0x06,0xA1,0xD5,0x8B,0xB7,0xC5,0xDA,0x76,
  0xF5,0x50,0xAA,0x3D,0x8A,0x1F,0xBF,0xF0,0xEB,0x19,0xCC,0xB1,0xA3,0x13,0xD5,0x5C,
  0xDA,0x56,0xC9,0xEC,0x2E,0xF2,0x96,0x32,0x38,0x7F,0xE8,0xD7,0x6E,0x3C,0x04,0x68,
  0x04,0x3E,0x8F,0x66,0x3F,0x48,0x60,0xEE,0x12,0xBF,0x2D,0x5B,0x0B,0x74,0x74,0xD6,
  0xE6,0x94,0xF9,0x1E,0x6D,0xBE,0x11,0x59,0x74,0xA3,0x92,0x6F,0x12,0xFE,0xE5,0xE4,
  0x38,0x77,0x7C,0xB6,0xA9,0x32,0xDF,0x8C,0xD8,0xBE,0xC4,0xD0,0x73,0xB9,0x31,0xBA,
  0x3B,0xC8,0x32,0xB6,0x8D,0x9D,0xD3,0x00,0x74,0x1F,0xA7,0xBF,0x8A,0xFC,0x47,0xED,
  0x25,0x76,0xF6,0x93,0x6B,0xA4,0x24,0x66,0x3A,0xAB,0x63,0x9C,0x5A,0xE4,0xF5,0x68,
  0x34,0x23,0xB4,0x74,0x2B,0xF1,0xC9,0x78,0x23,0x8F,0x16,0xCB,0xE3,0x9D,0x65,0x2D,
  0xE3,0xFD,0xB8,0xBE,0xFC,0x84,0x8A,0xD9,0x22,0x22,0x2E,0x04,0xA4,0x03,0x7C,0x07,
  0x13,0xEB,0x57,0xA8,0x1A,0x23,0xF0,0xC7,0x34,0x73,0xFC,0x64,0x6C,0xEA,0x30,0x6B,
  0x4B,0xCB,0xC8,0x86,0x2F,0x83,0x85,0xDD,0xFA,0x9D,0x4B,0x7F,0xA2,0xC0,0x87,0xE8,
  0x79,0x68,0x33,0x03,0xED,0x5B,0xDD,0x3A,0x06,0x2B,0x3C,0xF5,0xB3,0xA2,0x78,0xA6,
  0x6D,0x2A,0x13,0xF8,0x3F,0x44,0xF8,0x2D,0xDF,0x31,0x0E,0xE0,0x74,0xAB,0x6A,0x36,
  0x45,0x97,0xE8,0x99,0xA0,0x25,0x5D,0xC1,0x64,0xF3,0x1C,0xC5,0x08,0x46,0x85,0x1D,
  0xF9,0xAB,0x48,0x19,0x5D,0xED,0x7E,0xA1,0xB1,0xD5,0x10,0xBD,0x7E,0xE7,0x4D,0x73,
  0xFA,0xF3,0x6B,0xC3,0x1E,0xCF,0xA2,0x68,0x35,0x90,0x46,0xF4,0xEB,0x87,0x9F,0x92,
  0x40,0x09,0x43,0x8B,0x48,0x1C,0x6C,0xD7,0x88,0x9A,0x00,0x2E,0xD5,0xEE,0x38,0x2B,
  0xC9,0x19,0x0D,0xA6,0xFC,0x02,0x6E,0x47,0x95,0x58,0xE4,0x47,0x56,0x77,0xE9,0xAA,
  0x9E,0x30,0x50,0xE2,0x76,0x56,0x94,0xDF,0xC8,0x1F,0x56,0xE8,0x80,0xB9,0x6E,0x71,
  0x60,0xC9,0x80,0xDD,0x98,0xED,0xD3,0xDF,0xFF,0xFF,0xFF,0xFF,0xFF,0xFF,0xFF,0xFF]

/-- One entry of the modulus table (`modulus_info_entry_t`): group number,
modulus bytes in network order, modulus length in bytes (`sizeof` of the
byte array in the source), and generator value. -/
structure modulus_info_entry_t where
  group : Nat
  modulus : chunk_t
  modulus_length : Nat
  generator : Nat
  deriving DecidableEq

/-- The modulus table `modulus_info_entries`, with the group numbers named
in the source comments (groups 1, 2, 5, 14, 15, 16, 17 and 18). -/
def modulus_info_entries : List modulus_info_entry_t :=
  [ ⟨1, group1_modulus, group1_modulus.length, 2⟩,
    ⟨2, group2_modulus, group2_modulus.length, 2⟩,
    ⟨5, group5_modulus, group5_modulus.length, 2⟩,
    ⟨14, group14_modulus, group14_modulus.length, 2⟩,
    ⟨15, group15_modulus, group15_modulus.length, 2⟩,
    ⟨16, group16_modulus, group16_modulus.length, 2⟩,
    ⟨17, group17_modulus, group17_modulus.length, 2⟩,
    ⟨18, group18_modulus, group18_modulus.length, 2⟩ ]

/-- The status values (`status_t`) used by this module. -/
inductive status_t where
  | SUCCESS
  | FAILED
  | NOT_FOUND
  deriving DecidableEq

/-- The linear scan of `modulus_info_entries` performed by `set_modulus`:
the first entry whose group number equals the requested one. -/
def set_modulus_lookup : List modulus_info_entry_t → Nat → Option modulus_info_entry_t
  | [], _ => none
  | e :: rest, g => if e.group = g then some e else set_modulus_lookup rest g

/-- `set_modulus`: resolve the group number in the modulus table,
yielding the entry whose modulus, modulus length and generator the
exchange object copies (`NOT_FOUND` is modelled as `none`). -/
def set_modulus (g : Nat) : Option modulus_info_entry_t :=
  set_modulus_lookup modulus_info_entries g

/-- `private_diffie_hellman_t`: the state of one exchange object.  The
`mpz_t` fields that the source initializes lazily (`my_public_value`,
`other_public_value`, `shared_secret`) are `Option Nat`; `modulus` and
`my_prime` are initialized by every successful create and are plain. -/
structure private_diffie_hellman_t where
  dh_group_number : Nat
  modulus : Nat
  modulus_length : Nat
  generator : Nat
  my_prime : Nat
  my_public_value : Option Nat
  other_public_value : Option Nat
  shared_secret : Option Nat
  my_public_value_is_computed : Bool
  shared_secret_is_computed : Bool
  deriving DecidableEq

/-- `compute_public_value`: `my_public_value := generator ^ my_prime mod
modulus`, and the computed flag is set. -/
def compute_public_value (s : private_diffie_hellman_t) : private_diffie_hellman_t :=
  { s with
    my_public_value := some (mod_pow s.generator s.my_prime s.modulus),
    my_public_value_is_computed := true }

/-- `get_my_public_value`: computes the public value on first use, then
exports it at width `modulus_length`.  Returns the chunk (`none` models a
failed status) and the possibly updated object. -/
def get_my_public_value (s : private_diffie_hellman_t) :
    Option chunk_t × private_diffie_hellman_t :=
  let s' := if s.my_public_value_is_computed = false then compute_public_value s else s
  (mpz_to_chunk (s'.my_public_value.getD 0) s'.modulus_length, s')

/-- `compute_shared_secret`: `shared_secret := other_public_value ^
my_prime mod modulus`, and the computed flag is set. -/
def compute_shared_secret (s : private_diffie_hellman_t) : private_diffie_hellman_t :=
  { s with
    shared_secret := some (mod_pow (s.other_public_value.getD 0) s.my_prime s.modulus),
    shared_secret_is_computed := true }

/-- `set_other_public_value`: import the chunk into `other_public_value`,
then immediately compute the shared secret; always returns `SUCCESS`. -/
def set_other_public_value (s : private_diffie_hellman_t) (public_value : chunk_t) :
    status_t × private_diffie_hellman_t :=
  (status_t.SUCCESS,
   compute_shared_secret { s with other_public_value := some (chunk_to_mpz public_value) })

/-- `get_other_public_value`: fails while the shared secret has not been
computed, otherwise exports the peer public value at width
`modulus_length`. -/
def get_other_public_value (s : private_diffie_hellman_t) : Option chunk_t :=
  if s.shared_secret_is_computed = false then none
  else mpz_to_chunk (s.other_public_value.getD 0) s.modulus_length

/-- `get_shared_secret`: fails while the shared secret has not been
computed, otherwise exports it at width `modulus_length`. -/
def get_shared_secret (s : private_diffie_hellman_t) : Option chunk_t :=
  if s.shared_secret_is_computed = false then none
  else mpz_to_chunk (s.shared_secret.getD 0) s.modulus_length

/-- `diffie_hellman_create`.  `alloc_ok` is the outcome of
`allocator_alloc_thing`, `gmp_helper_ok` the outcome of
`gmp_helper_create`, and `my_prime` the outcome of `init_prime` (the
private exponent delivered by the randomizer, `none` on randomness
failure); all three are external capabilities.  Besides the optional
object the model returns the ledger of allocations made through the
allocator on behalf of this object and not given back: each failure
branch of the source frees `this` and destroys the gmp helper exactly as
the corresponding `allocator_free` / `destroy` calls do. -/
def diffie_hellman_create (dh_group_number : Nat) (alloc_ok gmp_helper_ok : Bool)
    (my_prime : Option Nat) : Option private_diffie_hellman_t × List String :=
  if alloc_ok = false then (none, [])
  else
    let ledger : List String := ["this"]
    if gmp_helper_ok = false then (none, ledger.erase "this")
    else
      let ledger := "gmp_helper" :: ledger
      match set_modulus dh_group_number with
      | none => (none, (ledger.erase "gmp_helper").erase "this")
      | some entry =>
        match my_prime with
        | none => (none, (ledger.erase "gmp_helper").erase "this")
        | some e =>
          (some { dh_group_number := dh_group_number,
                  modulus := chunk_to_mpz entry.modulus,
                  modulus_length := entry.modulus_length,
                  generator := entry.generator,
                  my_prime := e,
                  my_public_value := none,
                  other_public_value := none,
                  shared_secret := none,
                  my_public_value_is_computed := false,
                  shared_secret_is_computed := false }, ledger)

/-- The five `mpz_t` fields of `private_diffie_hellman_t`. -/
inductive mpz_field where
  | modulus
  | my_prime
  | my_public_value
  | other_public_value
  | shared_secret
  deriving DecidableEq

/-- `destroy`: the sequence of `mpz_clear` calls the source makes, in
order: `modulus` and `my_prime` unconditionally, `my_public_value` when
its computed flag is set, `other_public_value` and `shared_secret`
together when the shared-secret flag is set. -/
def destroy_cleared (s : private_diffie_hellman_t) : List mpz_field :=
  [mpz_field.modulus, mpz_field.my_prime]
    ++ (if s.my_public_value_is_computed then [mpz_field.my_public_value] else [])
    ++ (if s.shared_secret_is_computed then
          [mpz_field.other_public_value, mpz_field.shared_secret] else [])

/-- The `mpz_t` fields actually initialized in a state: `modulus` and
`my_prime` always (every successful create initializes them), and each
optional field exactly when it holds a value. -/
def initialized_fields (s : private_diffie_hellman_t) : List mpz_field :=
  [mpz_field.modulus, mpz_field.my_prime]
    ++ (if s.my_public_value.isSome then [mpz_field.my_public_value] else [])
    ++ (if s.other_public_value.isSome then [mpz_field.other_public_value] else [])
    ++ (if s.shared_secret.isSome then [mpz_field.shared_secret] else [])

/-- States reachable through the public interface from a successful
create (with any group and any private exponent). -/
inductive reachable : private_diffie_hellman_t → Prop
  | created (g e : Nat) (s : private_diffie_hellman_t)
      (h : (diffie_hellman_create g true true (some e)).1 = some s) : reachable s
  | get_my (s : private_diffie_hellman_t) (h : reachable s) :
      reachable (get_my_public_value s).2
  | set_other (s : private_diffie_hellman_t) (c : chunk_t) (h : reachable s) :
      reachable (set_other_public_value s c).2

/-- A concrete group-1 exchange object with private exponent 2, exactly
as produced by a successful create; used to exercise the theorems on a
concrete input. -/
def exchange_A : private_diffie_hellman_t :=
  { dh_group_number := 1,
    modulus := chunk_to_mpz group1_modulus,
    modulus_length := group1_modulus.length,
    generator := 2,
    my_prime := 2,
    my_public_value := none,
    other_public_value := none,
    shared_secret := none,
    my_public_value_is_computed := false,
    shared_secret_is_computed := false }

/-- A concrete group-1 exchange object with private exponent 3. -/
def exchange_B : private_diffie_hellman_t :=
  { exchange_A with my_prime := 3 }

/-- A 97-byte chunk encoding `256 ^ 96`, one byte more than the group-1
modulus length. -/
def oversized_chunk : chunk_t :=
  1 :: List.replicate 96 0

end DH

namespace Allocator

/-- `memory_hdr_t`: the header in front of every allocated block in the
leak-detective build.  `filename` is an identifier for the call-site
file; `older` and `newer` are the links of the doubly linked list,
modelled as optional block addresses (null = `none`). -/
structure memory_hdr_t where
  filename : Nat
  line : Nat
  size_of_memory : Nat
  older : Option Nat
  newer : Option Nat
  deriving DecidableEq

/-- The header heap: which address currently holds which header. -/
def heap_t := Nat → Option memory_hdr_t

/-- `private_allocator_t`: the header heap plus the global `allocations`
head pointer. -/
structure private_allocator_t where
  heap : heap_t
  allocations : Option Nat

/-- Write one header cell of the heap. -/
def hupdate (h : heap_t) (a : Nat) (v : Option memory_hdr_t) : heap_t :=
  fun x => if x = a then v else h x

/-- `allocate_special`, successful branch: the new block `a` is linked
in at the head of the allocations list: its `older` is the previous
head, its `newer` is null, and the previous head's `newer` is repointed
to `a`. -/
def allocate_special (st : private_allocator_t) (a file line size : Nat) :
    private_allocator_t :=
  let hdr : memory_hdr_t :=
    { filename := file, line := line, size_of_memory := size,
      older := st.allocations, newer := none }
  let heap := hupdate st.heap a (some hdr)
  let heap :=
    match st.allocations with
    | none => heap
    | some old =>
      match heap old with
      | some r => hupdate heap old (some { r with newer := some a })
      | none => heap
  { heap := heap, allocations := some a }

/-- `free_pointer` on a non-null pointer: unlink the block from the
doubly linked list exactly as the source does (repoint the older
neighbour's `newer`; then either pop the head, when the block has no
newer neighbour, or repoint the newer neighbour's `older`) and discard
the header. -/
def free_block (st : private_allocator_t) (a : Nat) : private_allocator_t :=
  match st.heap a with
  | none => st
  | some r =>
    let heap1 :=
      match r.older with
      | none => st.heap
      | some o =>
        match st.heap o with
        | some ro => hupdate st.heap o (some { ro with newer := r.newer })
        | none => st.heap
    let p :=
      match r.newer with
      | none => (heap1, r.older)
      | some nw =>
        match heap1 nw with
        | some rn => (hupdate heap1 nw (some { rn with older := r.older }), st.allocations)
        | none => (heap1, st.allocations)
    { heap := hupdate p.1 a none, allocations := p.2 }

/-- One call into the allocator interface: `allocate`,
`allocate_as_chunk`, `clone_bytes`, `reallocate` or `free_pointer`.
Optional addresses model null pointers and failed `malloc` calls: an
allocation with `a = none` is one whose `malloc` failed, and a `none`
source or old pointer is NULL. -/
inductive alloc_op where
  | allocate (a : Option Nat) (file line size : Nat)
  | allocate_as_chunk (a : Option Nat) (file line size : Nat)
  | clone_bytes (from_ptr : Option Nat) (a : Option Nat) (file line size : Nat)
  | reallocate (old : Option Nat) (a : Option Nat) (file line size : Nat)
  | free_pointer (q : Option Nat)
  deriving DecidableEq

/-- The heap and list effect of one allocator call, following the source
branch by branch: `allocate_as_chunk` and `clone_bytes` allocate through
`allocate_special`; `reallocate` allocates the new block and then frees
the old one (and frees the old one even when its own allocation fails,
as the source does); `free_pointer` of NULL does nothing. -/
def alloc_step (st : private_allocator_t) : alloc_op → private_allocator_t
  | .allocate none _ _ _ => st
  | .allocate (some a) file line size => allocate_special st a file line size
  | .allocate_as_chunk none _ _ _ => st
  | .allocate_as_chunk (some a) file line size => allocate_special st a file line size
  | .clone_bytes none _ _ _ _ => st
  | .clone_bytes (some _) none _ _ _ => st
  | .clone_bytes (some _) (some a) file line size => allocate_special st a file line size
  | .reallocate none _ _ _ _ => st
  | .reallocate (some old) none _ _ _ => free_block st old
  | .reallocate (some old) (some a) file line size =>
      free_block (allocate_special st a file line size) old
  | .free_pointer none => st
  | .free_pointer (some q) => free_block st q

/-- The abstract outstanding-allocations list, newest first, as updated
by one call. -/
def outs_step (l : List Nat) : alloc_op → List Nat
  | .allocate none _ _ _ => l
  | .allocate (some a) _ _ _ => a :: l
  | .allocate_as_chunk none _ _ _ => l
  | .allocate_as_chunk (some a) _ _ _ => a :: l
  | .clone_bytes none _ _ _ _ => l
  | .clone_bytes (some _) none _ _ _ => l
  | .clone_bytes (some _) (some a) _ _ _ => a :: l
  | .reallocate none _ _ _ _ => l
  | .reallocate (some old) none _ _ _ => l.erase old
  | .reallocate (some old) (some a) _ _ _ => (a :: l).erase old
  | .free_pointer none => l
  | .free_pointer (some q) => l.erase q

/-- Legality of one call given the outstanding list: freed and
reallocated pointers must be outstanding allocations, and a successful
`malloc` must return an address that is not currently allocated. -/
def op_legal (l : List Nat) : alloc_op → Bool
  | .allocate none _ _ _ => true
  | .allocate (some a) _ _ _ => decide (a ∉ l)
  | .allocate_as_chunk none _ _ _ => true
  | .allocate_as_chunk (some a) _ _ _ => decide (a ∉ l)
  | .clone_bytes none _ _ _ _ => true
  | .clone_bytes (some _) none _ _ _ => true
  | .clone_bytes (some _) (some a) _ _ _ => decide (a ∉ l)
  | .reallocate none _ _ _ _ => true
  | .reallocate (some old) none _ _ _ => decide (old ∈ l)
  | .reallocate (some old) (some a) _ _ _ => decide (old ∈ l) && decide (a ∉ l)
  | .free_pointer none => true
  | .free_pointer (some q) => decide (q ∈ l)

/-- Run a sequence of allocator calls. -/
def run_ops (st : private_allocator_t) : List alloc_op → private_allocator_t
  | [] => st
  | op :: rest => run_ops (alloc_step st op) rest

/-- The outstanding list after a sequence of calls. -/
def outs (l : List Nat) : List alloc_op → List Nat
  | [] => l
  | op :: rest => outs (outs_step l op) rest

/-- Legality of a whole sequence of calls. -/
def legal (l : List Nat) : List alloc_op → Bool
  | [] => true
  | op :: rest => op_legal l op && legal (outs_step l op) rest

/-- The static initial allocator: empty heap, null head. -/
def initial_allocator : private_allocator_t :=
  { heap := fun _ => none, allocations := none }

/-- The allocations chain: starting at `cur`, whose newer neighbour is
`prev` (`none` for the head of the list), the spine of the doubly linked
list is exactly `l`: each node's header is present, its `newer` points
back at the previous node and its `older` continues the chain, which
ends at null. -/
def chain_ok (h : heap_t) : Option Nat → Option Nat → List Nat → Prop
  | _, cur, [] => cur = none
  | prev, cur, a :: rest =>
      cur = some a ∧
        ∃ r, h a = some r ∧ r.newer = prev ∧ chain_ok h (some a) r.older rest

/-- A chain segment: starting at `cur` with newer neighbour `prev`,
consuming `l` ends ready to continue at `ecur`, whose newer neighbour is
`eprev`. -/
def chain_seg (h : heap_t) :
    Option Nat → Option Nat → List Nat → Option Nat → Option Nat → Prop
  | prev, cur, [], eprev, ecur => eprev = prev ∧ ecur = cur
  | prev, cur, a :: rest, eprev, ecur =>
      cur = some a ∧
        ∃ r, h a = some r ∧ r.newer = prev ∧ chain_seg h (some a) r.older rest eprev ecur

/-- The allocator state is a well-formed doubly linked list with
outstanding spine `l`. -/
def wf (st : private_allocator_t) (l : List Nat) : Prop :=
  chain_ok st.heap none st.allocations l ∧ l.Nodup

/-- The traversal `allocator_report_memory_leaks` makes: follow `older`
links from the head, with explicit fuel so that the walk is total even
on ill-formed heaps. -/
def report_walk (h : heap_t) : Option Nat → Nat → List Nat
  | _, 0 => []
  | none, _ + 1 => []
  | some a, fuel + 1 =>
      a :: report_walk h (match h a with | some r => r.older | none => none) fuel

/-- A sample call sequence: two allocations, then free of the first. -/
def sample_ops : List alloc_op :=
  [alloc_op.allocate (some 1) 10 11 4,
   alloc_op.allocate (some 2) 10 12 8,
   alloc_op.free_pointer (some 1)]

end Allocator

namespace DH

theorem integer_to_bytes_length (x : Nat) : ∀ w, (integer_to_bytes x w).length = w := by
  intro w
  induction w with
  | zero => rfl
  | succ w ih => simp [integer_to_bytes, ih]

theorem integer_to_bytes_bytes_lt (x : Nat) : ∀ w, ∀ b ∈ integer_to_bytes x w, b < 256 := by
  intro w
  induction w with
  | zero => intro b hb; simp [integer_to_bytes] at hb
  | succ w ih =>
      intro b hb
      rcases List.mem_cons.mp hb with hb | hb
      · subst hb; exact Nat.mod_lt _ (by norm_num)
      · exact ih b hb

theorem bytes_to_integer_foldl (l : chunk_t) :
    ∀ acc, l.foldl (fun acc b => acc * 256 + b) acc =
      acc * 256 ^ l.length + bytes_to_integer l := by
  induction l with
  | nil => intro acc; simp [bytes_to_integer]
  | cons b t ih =>
      intro acc
      have h1 : (b :: t).foldl (fun acc b => acc * 256 + b) acc =
          t.foldl (fun acc b => acc * 256 + b) (acc * 256 + b) := rfl
      have h2 : bytes_to_integer (b :: t) =
          t.foldl (fun acc b => acc * 256 + b) b := by
        simp [bytes_to_integer]
      rw [h1, ih (acc * 256 + b), h2, ih b]
      simp [List.length_cons, pow_succ]
      ring

theorem bytes_to_integer_cons (b : Nat) (t : chunk_t) :
    bytes_to_integer (b :: t) = b * 256 ^ t.length + bytes_to_integer t := by
  have : bytes_to_integer (b :: t) = t.foldl (fun acc b => acc * 256 + b) b := by
    simp [bytes_to_integer]
  rw [this, bytes_to_integer_foldl]

theorem bytes_to_integer_integer_to_bytes (x : Nat) :
    ∀ w, bytes_to_integer (integer_to_bytes x w) = x % 256 ^ w := by
  intro w
  induction w with
  | zero => simp [integer_to_bytes, bytes_to_integer, Nat.mod_one]
  | succ w ih =>
      rw [integer_to_bytes, bytes_to_integer_cons, integer_to_bytes_length, ih,
        pow_succ, Nat.mod_mul]
      ring

theorem bytes_to_integer_integer_to_bytes_of_lt {x w : Nat} (h : x < 256 ^ w) :
    bytes_to_integer (integer_to_bytes x w) = x := by
  rw [bytes_to_integer_integer_to_bytes, Nat.mod_eq_of_lt h]

theorem bytes_to_integer_lt (l : chunk_t) (hb : ∀ b ∈ l, b < 256) :
    bytes_to_integer l < 256 ^ l.length := by
  suffices h : ∀ acc, l.foldl (fun acc b => acc * 256 + b) acc < (acc + 1) * 256 ^ l.length by
    have := h 0
    simpa [bytes_to_integer] using this
  induction l with
  | nil => intro acc; simp
  | cons b t ih =>
      intro acc
      have hbl : b < 256 := hb b (List.mem_cons_self b t)
      have ht : ∀ y ∈ t, y < 256 := fun y hy => hb y (List.mem_cons_of_mem b hy)
      have h1 : (b :: t).foldl (fun acc b => acc * 256 + b) acc =
          t.foldl (fun acc b => acc * 256 + b) (acc * 256 + b) := rfl
      rw [h1]
      calc t.foldl (fun acc b => acc * 256 + b) (acc * 256 + b)
          < (acc * 256 + b + 1) * 256 ^ t.length := ih ht (acc * 256 + b)
        _ ≤ ((acc + 1) * 256) * 256 ^ t.length := by
            apply Nat.mul_le_mul_right
            omega
        _ = (acc + 1) * 256 ^ (b :: t).length := by
            simp [List.length_cons, pow_succ]
            ring

theorem integer_to_bytes_take_zero {x k : Nat} :
    ∀ w, x < 256 ^ k → k ≤ w →
      (integer_to_bytes x w).take (w - k) = List.replicate (w - k) 0 := by
  intro w
  induction w with
  | zero => intro _ hk; interval_cases k; simp
  | succ w ih =>
      intro hx hk
      rcases Nat.eq_or_lt_of_le hk with hk1 | hk1
      · simp [← hk1]
      · have hk2 : k ≤ w := Nat.lt_succ_iff.mp hk1
        have hhead : x / 256 ^ w % 256 = 0 := by
          have : x < 256 ^ w := lt_of_lt_of_le hx (Nat.pow_le_pow_right (by norm_num) hk2)
          simp [Nat.div_eq_of_lt this]
        have harith : w + 1 - k = (w - k) + 1 := by omega
        rw [integer_to_bytes, harith, List.take_succ_cons, List.replicate_succ,
          hhead, ih hx hk2]

theorem mpz_to_chunk_of_lt {v w : Nat} (h : v < 256 ^ w) :
    mpz_to_chunk v w = some (integer_to_bytes v w) := by
  simp [mpz_to_chunk, h]

theorem mpz_to_chunk_of_ge {v w : Nat} (h : 256 ^ w ≤ v) :
    mpz_to_chunk v w = none := by
  simp [mpz_to_chunk]
  omega

theorem mpz_to_chunk_some {v w : Nat} {c : chunk_t} (h : mpz_to_chunk v w = some c) :
    c = integer_to_bytes v w ∧ v < 256 ^ w := by
  by_cases hv : v < 256 ^ w
  · rw [mpz_to_chunk_of_lt hv] at h
    exact ⟨(Option.some_inj.mp h).symm, hv⟩
  · rw [mpz_to_chunk_of_ge (Nat.le_of_not_lt hv)] at h
    cases h

theorem set_modulus_lookup_mem :
    ∀ (L : List modulus_info_entry_t) (g : Nat) (e : modulus_info_entry_t),
      set_modulus_lookup L g = some e → e ∈ L := by
  intro L
  induction L with
  | nil => intro g e h; cases h
  | cons x rest ih =>
      intro g e h
      rw [set_modulus_lookup] at h
      by_cases hx : x.group = g
      · rw [if_pos hx] at h
        exact (Option.some_inj.mp h) ▸ List.mem_cons_self x rest
      · rw [if_neg hx] at h
        exact List.mem_cons_of_mem x (ih g e h)

theorem set_modulus_lookup_none :
    ∀ (L : List modulus_info_entry_t) (g : Nat),
      (∀ e ∈ L, e.group ≠ g) → set_modulus_lookup L g = none := by
  intro L
  induction L with
  | nil => intro g _; rfl
  | cons x rest ih =>
      intro g h
      rw [set_modulus_lookup, if_neg (h x (List.mem_cons_self x rest))]
      exact ih g fun e he => h e (List.mem_cons_of_mem x he)

set_option maxRecDepth 100000 in
theorem entries_good : ∀ e ∈ modulus_info_entries,
    0 < chunk_to_mpz e.modulus ∧ chunk_to_mpz e.modulus ≤ 256 ^ e.modulus_length ∧
      e.modulus_length = e.modulus.length := by decide

set_option maxRecDepth 100000 in
theorem entries_groups : ∀ e ∈ modulus_info_entries,
    e.group ∈ [1, 2, 5, 14, 15, 16, 17, 18] := by decide

theorem set_modulus_good {g : Nat} {e : modulus_info_entry_t} (h : set_modulus g = some e) :
    0 < chunk_to_mpz e.modulus ∧ chunk_to_mpz e.modulus ≤ 256 ^ e.modulus_length :=
  ⟨(entries_good e (set_modulus_lookup_mem _ _ _ h)).1,
   (entries_good e (set_modulus_lookup_mem _ _ _ h)).2.1⟩

end DH

namespace DH

/-- Characterization of a successful create: the group is found in the
table and the returned state is exactly the freshly constructed one. -/
theorem create_success {g p : Nat} {s : private_diffie_hellman_t}
    (h : (diffie_hellman_create g true true (some p)).1 = some s) :
    ∃ e, set_modulus g = some e ∧
      s = { dh_group_number := g,
            modulus := chunk_to_mpz e.modulus,
            modulus_length := e.modulus_length,
            generator := e.generator,
            my_prime := p,
            my_public_value := none,
            other_public_value := none,
            shared_secret := none,
            my_public_value_is_computed := false,
            shared_secret_is_computed := false } := by
  unfold diffie_hellman_create at h
  simp only [Bool.true_eq_false, if_false] at h
  cases hsm : set_modulus g with
  | none => rw [hsm] at h; simp at h
  | some e =>
      rw [hsm] at h
      simp only [Option.some_inj] at h
      exact ⟨e, rfl, h.symm⟩

/-- Every successfully created state has a positive modulus that fits in
`modulus_length` bytes. -/
theorem created_good {g p : Nat} {s : private_diffie_hellman_t}
    (h : (diffie_hellman_create g true true (some p)).1 = some s) :
    0 < s.modulus ∧ s.modulus ≤ 256 ^ s.modulus_length := by
  obtain ⟨e, hsm, hs⟩ := create_success h
  subst hs
  exact set_modulus_good hsm

/-- The group parameters never change after construction, so every
reachable state keeps a positive modulus fitting in `modulus_length`
bytes. -/
theorem reachable_good {s : private_diffie_hellman_t} (h : reachable s) :
    0 < s.modulus ∧ s.modulus ≤ 256 ^ s.modulus_length := by
  induction h with
  | created g e s hc => exact created_good hc
  | get_my s _ ih =>
      unfold get_my_public_value
      by_cases hf : s.my_public_value_is_computed = false <;>
        simp [hf, compute_public_value, ih]
  | set_other s c _ ih =>
      simpa [set_other_public_value, compute_shared_secret] using ih

/-- In every reachable state the `*_is_computed` flags track exactly
which optional `mpz_t` fields hold a value, and the peer public value is
initialized exactly together with the shared secret. -/
theorem reachable_flags {s : private_diffie_hellman_t} (h : reachable s) :
    s.my_public_value_is_computed = s.my_public_value.isSome ∧
    s.shared_secret_is_computed = s.shared_secret.isSome ∧
    s.shared_secret_is_computed = s.other_public_value.isSome := by
  induction h with
  | created g e s hc =>
      obtain ⟨_, _, hs⟩ := create_success hc
      subst hs
      simp
  | get_my s _ ih =>
      obtain ⟨i1, i2, i3⟩ := ih
      unfold get_my_public_value
      cases hf : s.my_public_value_is_computed with
      | false =>
          simp [hf, compute_public_value]
          exact ⟨i2, i3⟩
      | true =>
          simp only [hf, Bool.true_eq_false, if_false]
          exact ⟨hf ▸ i1, i2, i3⟩
  | set_other s c _ ih =>
      simp [set_other_public_value, compute_shared_secret, ih.1]

end DH

namespace DH

theorem mpz_chunk_canonical {v L : Nat} (hv : v < 256 ^ L) :
    (integer_to_bytes v L).length = L ∧
    mpz_to_chunk (bytes_to_integer (integer_to_bytes v L)) L = some (integer_to_bytes v L) ∧
    ∀ k, k ≤ L → bytes_to_integer (integer_to_bytes v L) < 256 ^ k →
      (integer_to_bytes v L).take (L - k) = List.replicate (L - k) 0 := by
  have hrt := bytes_to_integer_integer_to_bytes_of_lt hv
  refine ⟨integer_to_bytes_length v L, ?_, ?_⟩
  · rw [hrt]
    exact mpz_to_chunk_of_lt hv
  · intro k hk hvk
    rw [hrt] at hvk
    exact integer_to_bytes_take_zero L hvk hk

/-- C1: for every supported group id, two exchange objects constructed
with that same group id that exchange their public values derive
byte-identical shared secrets, both being the fixed-width encoding of
`generator ^ (a * b) mod p`. -/
theorem C1_shared_secret_agreement (g a b : Nat) (A B : private_diffie_hellman_t)
    (hA : (diffie_hellman_create g true true (some a)).1 = some A)
    (hB : (diffie_hellman_create g true true (some b)).1 = some B) :
    ∃ ca cb sec,
      (get_my_public_value A).1 = some ca ∧
      (get_my_public_value B).1 = some cb ∧
      get_shared_secret (set_other_public_value (get_my_public_value A).2 cb).2 = some sec ∧
      get_shared_secret (set_other_public_value (get_my_public_value B).2 ca).2 = some sec ∧
      sec = integer_to_bytes (A.generator ^ (a * b) % A.modulus) A.modulus_length := by
  obtain ⟨e, hsm, hAs⟩ := create_success hA
  obtain ⟨e', hsm', hBs⟩ := create_success hB
  rw [hsm] at hsm'
  obtain rfl : e = e' := Option.some_inj.mp hsm'
  obtain ⟨hm0, hmL⟩ := set_modulus_good hsm
  subst hAs
  subst hBs
  have hva : e.generator ^ a % chunk_to_mpz e.modulus < 256 ^ e.modulus_length :=
    lt_of_lt_of_le (Nat.mod_lt _ hm0) hmL
  have hvb : e.generator ^ b % chunk_to_mpz e.modulus < 256 ^ e.modulus_length :=
    lt_of_lt_of_le (Nat.mod_lt _ hm0) hmL
  have hsec : e.generator ^ (a * b) % chunk_to_mpz e.modulus < 256 ^ e.modulus_length :=
    lt_of_lt_of_le (Nat.mod_lt _ hm0) hmL
  have hrta : chunk_to_mpz (integer_to_bytes (e.generator ^ a % chunk_to_mpz e.modulus)
      e.modulus_length) = e.generator ^ a % chunk_to_mpz e.modulus :=
    bytes_to_integer_integer_to_bytes_of_lt hva
  have hrtb : chunk_to_mpz (integer_to_bytes (e.generator ^ b % chunk_to_mpz e.modulus)
      e.modulus_length) = e.generator ^ b % chunk_to_mpz e.modulus :=
    bytes_to_integer_integer_to_bytes_of_lt hvb
  have hkeyA : (e.generator ^ b % chunk_to_mpz e.modulus) ^ a % chunk_to_mpz e.modulus =
      e.generator ^ (a * b) % chunk_to_mpz e.modulus := by
    rw [← Nat.pow_mod, ← pow_mul, Nat.mul_comm b a]
  have hkeyB : (e.generator ^ a % chunk_to_mpz e.modulus) ^ b % chunk_to_mpz e.modulus =
      e.generator ^ (a * b) % chunk_to_mpz e.modulus := by
    rw [← Nat.pow_mod, ← pow_mul]
  refine ⟨integer_to_bytes (e.generator ^ a % chunk_to_mpz e.modulus) e.modulus_length,
         integer_to_bytes (e.generator ^ b % chunk_to_mpz e.modulus) e.modulus_length,
         integer_to_bytes (e.generator ^ (a * b) % chunk_to_mpz e.modulus) e.modulus_length,
         ?_, ?_, ?_, ?_, rfl⟩
  · simp [get_my_public_value, compute_public_value, mod_pow, mpz_to_chunk_of_lt hva]
  · simp [get_my_public_value, compute_public_value, mod_pow, mpz_to_chunk_of_lt hvb]
  · simp [get_my_public_value, compute_public_value, set_other_public_value,
      compute_shared_secret, get_shared_secret, mod_pow, hrtb, hkeyA,
      mpz_to_chunk_of_lt hsec]
  · simp [get_my_public_value, compute_public_value, set_other_public_value,
      compute_shared_secret, get_shared_secret, mod_pow, hrta, hkeyB,
      mpz_to_chunk_of_lt hsec]

set_option maxRecDepth 100000 in
/-- C1 witness: the agreement theorem applied to two concrete group-1
objects with exponents 2 and 3. -/
theorem C1_witness :
    (diffie_hellman_create 1 true true (some 2)).1 = some exchange_A ∧
    (diffie_hellman_create 1 true true (some 3)).1 = some exchange_B ∧
    (∃ ca cb sec,
      (get_my_public_value exchange_A).1 = some ca ∧
      (get_my_public_value exchange_B).1 = some cb ∧
      get_shared_secret
        (set_other_public_value (get_my_public_value exchange_A).2 cb).2 = some sec ∧
      get_shared_secret
        (set_other_public_value (get_my_public_value exchange_B).2 ca).2 = some sec ∧
      sec = integer_to_bytes (exchange_A.generator ^ (2 * 3) % exchange_A.modulus)
        exchange_A.modulus_length) :=
  ⟨rfl, rfl, C1_shared_secret_agreement 1 2 3 exchange_A exchange_B rfl rfl⟩

/-- C2: every chunk returned by one of the three getters is exactly
`modulus_length` bytes: it is the big-endian encoding of the stored
value at that fixed width, its canonical re-encoding at width
`modulus_length` is the chunk itself, and whenever its value fits in
`k ≤ modulus_length` bytes the leading `modulus_length - k` bytes are
zero (left zero padding, never the natural byte length). -/
theorem C2_fixed_width_marshalling (s : private_diffie_hellman_t) (c : chunk_t)
    (h : (get_my_public_value s).1 = some c ∨ get_other_public_value s = some c ∨
      get_shared_secret s = some c) :
    c.length = s.modulus_length ∧
    mpz_to_chunk (bytes_to_integer c) s.modulus_length = some c ∧
    ∀ k, k ≤ s.modulus_length → bytes_to_integer c < 256 ^ k →
      c.take (s.modulus_length - k) = List.replicate (s.modulus_length - k) 0 := by
  rcases h with h | h | h
  · unfold get_my_public_value at h
    cases hf : s.my_public_value_is_computed with
    | false =>
        simp only [hf, if_true, compute_public_value] at h
        obtain ⟨hc, hv⟩ := mpz_to_chunk_some h
        subst hc
        exact mpz_chunk_canonical hv
    | true =>
        simp only [hf, Bool.true_eq_false, if_false] at h
        obtain ⟨hc, hv⟩ := mpz_to_chunk_some h
        subst hc
        exact mpz_chunk_canonical hv
  · unfold get_other_public_value at h
    cases hf : s.shared_secret_is_computed with
    | false => simp [hf] at h
    | true =>
        simp only [hf, Bool.true_eq_false, if_false] at h
        obtain ⟨hc, hv⟩ := mpz_to_chunk_some h
        subst hc
        exact mpz_chunk_canonical hv
  · unfold get_shared_secret at h
    cases hf : s.shared_secret_is_computed with
    | false => simp [hf] at h
    | true =>
        simp only [hf, Bool.true_eq_false, if_false] at h
        obtain ⟨hc, hv⟩ := mpz_to_chunk_some h
        subst hc
        exact mpz_chunk_canonical hv

set_option maxRecDepth 100000 in
/-- C2 witness: the marshalling theorem applied to a concrete state
whose shared secret is 5, in the 96-byte group. -/
theorem C2_witness :
    get_shared_secret
      { exchange_A with
        other_public_value := some 7,
        shared_secret := some 5,
        shared_secret_is_computed := true } =
      some (integer_to_bytes 5 group1_modulus.length) ∧
    ((integer_to_bytes 5 group1_modulus.length).length =
        ({ exchange_A with
           other_public_value := some 7,
           shared_secret := some 5,
           shared_secret_is_computed := true } :
          private_diffie_hellman_t).modulus_length ∧
      mpz_to_chunk (bytes_to_integer (integer_to_bytes 5 group1_modulus.length))
          group1_modulus.length = some (integer_to_bytes 5 group1_modulus.length) ∧
      ∀ k, k ≤ group1_modulus.length →
        bytes_to_integer (integer_to_bytes 5 group1_modulus.length) < 256 ^ k →
        (integer_to_bytes 5 group1_modulus.length).take (group1_modulus.length - k) =
          List.replicate (group1_modulus.length - k) 0) :=
  ⟨by decide,
   C2_fixed_width_marshalling _ _ (Or.inr (Or.inr (by decide)))⟩

/-- C3: create with a group id missing from the table fails, and every
failing create returns no object and an empty allocation ledger,
whichever failure branch is taken. -/
theorem C3_create_failure_atomic (g : Nat) (alloc_ok gmp_helper_ok : Bool)
    (prime : Option Nat) :
    (set_modulus g = none →
      (diffie_hellman_create g alloc_ok gmp_helper_ok prime).1 = none) ∧
    ((diffie_hellman_create g alloc_ok gmp_helper_ok prime).1 = none →
      (diffie_hellman_create g alloc_ok gmp_helper_ok prime).2 = []) := by
  unfold diffie_hellman_create
  cases alloc_ok with
  | false => simp
  | true =>
      cases gmp_helper_ok with
      | false => simp [List.erase]
      | true =>
          cases hsm : set_modulus g with
          | none => simp [List.erase]
          | some e =>
              cases prime with
              | none => simp [List.erase]
              | some p => simp

/-- C3 witness: the atomicity theorem applied to the unsupported group
id 20. -/
theorem C3_witness :
    set_modulus 20 = none ∧
    (diffie_hellman_create 20 true true (some 1)).1 = none ∧
    (diffie_hellman_create 20 true true (some 1)).2 = [] :=
  ⟨by decide,
   (C3_create_failure_atomic 20 true true (some 1)).1 (by decide),
   (C3_create_failure_atomic 20 true true (some 1)).2
     ((C3_create_failure_atomic 20 true true (some 1)).1 (by decide))⟩

end DH

namespace DH

set_option maxRecDepth 100000 in
/-- C4 counterexample: on a group-1 object, `set_other_public_value`
with a 97-byte chunk encoding `256 ^ 96` returns success, yet the
subsequent `get_other_public_value` still fails, because the peer value
does not fit in `modulus_length` bytes; the claim that both getters
succeed after any `set_other_public_value` call is therefore false. -/
theorem C4_counterexample :
    (set_other_public_value exchange_A oversized_chunk).1 = status_t.SUCCESS ∧
    get_other_public_value (set_other_public_value exchange_A oversized_chunk).2 = none := by
  constructor
  · rfl
  · decide

/-- C4 (amended): on a freshly constructed object both getters fail;
after `set_other_public_value` the shared-secret getter always succeeds,
and the peer-value getter succeeds exactly when the decoded peer value
fits in `modulus_length` bytes — in particular whenever the peer chunk
is at most `modulus_length` valid bytes — and fails on an oversized
peer value. -/
theorem C4_guard_behavior (g p : Nat) (s : private_diffie_hellman_t) (c : chunk_t)
    (h : (diffie_hellman_create g true true (some p)).1 = some s) :
    (get_shared_secret s = none ∧ get_other_public_value s = none) ∧
    (∃ sec, get_shared_secret (set_other_public_value s c).2 = some sec) ∧
    (chunk_to_mpz c < 256 ^ s.modulus_length →
      ∃ pv, get_other_public_value (set_other_public_value s c).2 = some pv) ∧
    (c.length ≤ s.modulus_length → (∀ y ∈ c, y < 256) →
      ∃ pv, get_other_public_value (set_other_public_value s c).2 = some pv) ∧
    (256 ^ s.modulus_length ≤ chunk_to_mpz c →
      get_other_public_value (set_other_public_value s c).2 = none) := by
  obtain ⟨e, hsm, hs⟩ := create_success h
  obtain ⟨hm0, hmL⟩ := set_modulus_good hsm
  subst hs
  refine ⟨⟨rfl, rfl⟩, ?_, ?_, ?_, ?_⟩
  · have hlt : mod_pow (chunk_to_mpz c) p (chunk_to_mpz e.modulus) < 256 ^ e.modulus_length :=
      lt_of_lt_of_le (Nat.mod_lt _ hm0) hmL
    refine ⟨integer_to_bytes (mod_pow (chunk_to_mpz c) p (chunk_to_mpz e.modulus))
      e.modulus_length, ?_⟩
    simp [set_other_public_value, compute_shared_secret, get_shared_secret,
      mpz_to_chunk_of_lt hlt]
  · intro hc
    refine ⟨integer_to_bytes (chunk_to_mpz c) e.modulus_length, ?_⟩
    simp [set_other_public_value, compute_shared_secret,
      get_other_public_value, mpz_to_chunk_of_lt hc]
  · intro hlen hbytes
    have hc : chunk_to_mpz c < 256 ^ e.modulus_length :=
      lt_of_lt_of_le (bytes_to_integer_lt c hbytes)
        (Nat.pow_le_pow_right (by norm_num) hlen)
    refine ⟨integer_to_bytes (chunk_to_mpz c) e.modulus_length, ?_⟩
    simp [set_other_public_value, compute_shared_secret,
      get_other_public_value, mpz_to_chunk_of_lt hc]
  · intro hc
    simp [set_other_public_value, compute_shared_secret, get_other_public_value,
      mpz_to_chunk_of_ge hc]

set_option maxRecDepth 100000 in
/-- C4 witness: the amended guard theorem applied to a concrete group-1
object and the one-byte peer chunk `[9]`. -/
theorem C4_witness :
    (diffie_hellman_create 1 true true (some 5)).1 =
      some { exchange_A with my_prime := 5 } ∧
    (get_shared_secret { exchange_A with my_prime := 5 } = none ∧
      get_other_public_value { exchange_A with my_prime := 5 } = none) ∧
    (∃ pv, get_other_public_value
      (set_other_public_value { exchange_A with my_prime := 5 } [9]).2 = some pv) :=
  ⟨rfl,
   (C4_guard_behavior 1 5 { exchange_A with my_prime := 5 } [9] rfl).1,
   (C4_guard_behavior 1 5 { exchange_A with my_prime := 5 } [9] rfl).2.2.1 (by decide)⟩

/-- C5: `set_other_public_value` returns success, decodes the chunk into
the peer public value and computes the shared secret
`peer ^ private_exponent mod modulus` within the same call, marking it
computed; `get_shared_secret` then returns exactly that value's
fixed-width encoding without any further computation. -/
theorem C5_immediate_shared_secret (s : private_diffie_hellman_t) (c : chunk_t) :
    (set_other_public_value s c).1 = status_t.SUCCESS ∧
    (set_other_public_value s c).2.other_public_value = some (chunk_to_mpz c) ∧
    (set_other_public_value s c).2.shared_secret =
      some (mod_pow (chunk_to_mpz c) s.my_prime s.modulus) ∧
    (set_other_public_value s c).2.shared_secret_is_computed = true ∧
    (0 < s.modulus → s.modulus ≤ 256 ^ s.modulus_length →
      get_shared_secret (set_other_public_value s c).2 =
        some (integer_to_bytes (mod_pow (chunk_to_mpz c) s.my_prime s.modulus)
          s.modulus_length)) := by
  refine ⟨rfl, rfl, rfl, rfl, fun hm0 hmL => ?_⟩
  have hlt : mod_pow (chunk_to_mpz c) s.my_prime s.modulus < 256 ^ s.modulus_length :=
    lt_of_lt_of_le (Nat.mod_lt _ hm0) hmL
  simp [set_other_public_value, compute_shared_secret, get_shared_secret,
    mpz_to_chunk_of_lt hlt]

set_option maxRecDepth 100000 in
/-- C5 witness: the immediate-computation theorem applied to a concrete
group-1 object and the peer chunk `[2, 7]`. -/
theorem C5_witness :
    (set_other_public_value exchange_B [2, 7]).1 = status_t.SUCCESS ∧
    (set_other_public_value exchange_B [2, 7]).2.other_public_value =
      some (chunk_to_mpz [2, 7]) ∧
    (set_other_public_value exchange_B [2, 7]).2.shared_secret =
      some (mod_pow (chunk_to_mpz [2, 7]) exchange_B.my_prime exchange_B.modulus) ∧
    (set_other_public_value exchange_B [2, 7]).2.shared_secret_is_computed = true ∧
    get_shared_secret (set_other_public_value exchange_B [2, 7]).2 =
      some (integer_to_bytes
        (mod_pow (chunk_to_mpz [2, 7]) exchange_B.my_prime exchange_B.modulus)
        exchange_B.modulus_length) :=
  ⟨(C5_immediate_shared_secret exchange_B [2, 7]).1,
   (C5_immediate_shared_secret exchange_B [2, 7]).2.1,
   (C5_immediate_shared_secret exchange_B [2, 7]).2.2.1,
   (C5_immediate_shared_secret exchange_B [2, 7]).2.2.2.1,
   (C5_immediate_shared_secret exchange_B [2, 7]).2.2.2.2 (by decide) (by decide)⟩

/-- C6: `get_my_public_value` is memoized: a second call returns a
byte-identical chunk and an identical state, the call leaves the peer
and shared-secret state untouched, and the returned chunk is unchanged
by an intervening `set_other_public_value`. -/
theorem C6_public_value_memoized (s : private_diffie_hellman_t) :
    (get_my_public_value (get_my_public_value s).2).1 = (get_my_public_value s).1 ∧
    (get_my_public_value (get_my_public_value s).2).2 = (get_my_public_value s).2 ∧
    (get_my_public_value s).2.shared_secret = s.shared_secret ∧
    (get_my_public_value s).2.shared_secret_is_computed = s.shared_secret_is_computed ∧
    (get_my_public_value s).2.other_public_value = s.other_public_value ∧
    ∀ c, (get_my_public_value (set_other_public_value s c).2).1 =
      (get_my_public_value s).1 := by
  cases hf : s.my_public_value_is_computed with
  | false =>
      simp [get_my_public_value, compute_public_value, hf, set_other_public_value,
        compute_shared_secret]
  | true =>
      simp [get_my_public_value, hf, set_other_public_value, compute_shared_secret]

set_option maxRecDepth 1000000 in
/-- C7: each of the eight groups of the table resolves to a descriptor
whose byte length is the advertised bit length over 8, whose generator
is 2, whose modulus is made of bytes with the leading bit of the first
byte set; any other group id resolves to nothing. -/
theorem C7_group_table :
    ((∃ e, set_modulus 1 = some e ∧ e.modulus_length = 768 / 8 ∧ e.generator = 2 ∧
        e.modulus.length = e.modulus_length ∧ 128 ≤ e.modulus.headI ∧
        e.modulus.all (· < 256) = true) ∧
     (∃ e, set_modulus 2 = some e ∧ e.modulus_length = 1024 / 8 ∧ e.generator = 2 ∧
        e.modulus.length = e.modulus_length ∧ 128 ≤ e.modulus.headI ∧
        e.modulus.all (· < 256) = true) ∧
     (∃ e, set_modulus 5 = some e ∧ e.modulus_length = 1536 / 8 ∧ e.generator = 2 ∧
        e.modulus.length = e.modulus_length ∧ 128 ≤ e.modulus.headI ∧
        e.modulus.all (· < 256) = true) ∧
     (∃ e, set_modulus 14 = some e ∧ e.modulus_length = 2048 / 8 ∧ e.generator = 2 ∧
        e.modulus.length = e.modulus_length ∧ 128 ≤ e.modulus.headI ∧
        e.modulus.all (· < 256) = true) ∧
     (∃ e, set_modulus 15 = some e ∧ e.modulus_length = 3072 / 8 ∧ e.generator = 2 ∧
        e.modulus.length = e.modulus_length ∧ 128 ≤ e.modulus.headI ∧
        e.modulus.all (· < 256) = true) ∧
     (∃ e, set_modulus 16 = some e ∧ e.modulus_length = 4096 / 8 ∧ e.generator = 2 ∧
        e.modulus.length = e.modulus_length ∧ 128 ≤ e.modulus.headI ∧
        e.modulus.all (· < 256) = true) ∧
     (∃ e, set_modulus 17 = some e ∧ e.modulus_length = 6144 / 8 ∧ e.generator = 2 ∧
        e.modulus.length = e.modulus_length ∧ 128 ≤ e.modulus.headI ∧
        e.modulus.all (· < 256) = true) ∧
     (∃ e, set_modulus 18 = some e ∧ e.modulus_length = 8192 / 8 ∧ e.generator = 2 ∧
        e.modulus.length = e.modulus_length ∧ 128 ≤ e.modulus.headI ∧
        e.modulus.all (· < 256) = true)) ∧
    (∀ g, g ∉ [1, 2, 5, 14, 15, 16, 17, 18] → set_modulus g = none) := by
  constructor
  · exact ⟨⟨_, rfl, by decide, rfl, rfl, by decide, by decide⟩,
           ⟨_, rfl, by decide, rfl, rfl, by decide, by decide⟩,
           ⟨_, rfl, by decide, rfl, rfl, by decide, by decide⟩,
           ⟨_, rfl, by decide, rfl, rfl, by decide, by decide⟩,
           ⟨_, rfl, by decide, rfl, rfl, by decide, by decide⟩,
           ⟨_, rfl, by decide, rfl, rfl, by decide, by decide⟩,
           ⟨_, rfl, by decide, rfl, rfl, by decide, by decide⟩,
           ⟨_, rfl, by decide, rfl, rfl, by decide, by decide⟩⟩
  · intro g hg
    refine set_modulus_lookup_none _ _ fun e he heq => hg ?_
    exact heq ▸ entries_groups e he

/-- C7 witness: the table theorem applied to the unsupported group id
3. -/
theorem C7_witness :
    3 ∉ [1, 2, 5, 14, 15, 16, 17, 18] ∧ set_modulus 3 = none :=
  ⟨by decide, C7_group_table.2 3 (by decide)⟩

/-- C8: in every reachable state, `destroy` clears exactly the mpz
fields that are actually initialized: the modulus and private exponent
always, the own public value exactly when present, and the peer value
and shared secret exactly when present (always together). -/
theorem C8_destroy_exact (s : private_diffie_hellman_t) (h : reachable s) :
    destroy_cleared s = initialized_fields s := by
  obtain ⟨i1, i2, i3⟩ := reachable_flags h
  have hos : s.other_public_value.isSome = s.shared_secret.isSome := i3.symm.trans i2
  unfold destroy_cleared initialized_fields
  rw [i1, i3, hos]
  cases s.shared_secret.isSome <;> simp

set_option maxRecDepth 100000 in
/-- C8 witness: the destroy theorem applied to a freshly created
concrete group-1 object. -/
theorem C8_witness :
    reachable exchange_B ∧ destroy_cleared exchange_B = initialized_fields exchange_B :=
  ⟨reachable.created 1 3 exchange_B rfl,
   C8_destroy_exact exchange_B (reachable.created 1 3 exchange_B rfl)⟩

/-- C9: for every group of the table and every residue below its
modulus, encoding at the canonical width and decoding returns the same
integer, and the encoding is exactly `modulus_length` bytes. -/
theorem C9_roundtrip_at_width (e : modulus_info_entry_t) (he : e ∈ modulus_info_entries)
    (x : Nat) (hx : x < chunk_to_mpz e.modulus) :
    bytes_to_integer (integer_to_bytes x e.modulus_length) = x ∧
    (integer_to_bytes x e.modulus_length).length = e.modulus_length := by
  have hxL : x < 256 ^ e.modulus_length := lt_of_lt_of_le hx (entries_good e he).2.1
  exact ⟨bytes_to_integer_integer_to_bytes_of_lt hxL, integer_to_bytes_length x _⟩

set_option maxRecDepth 100000 in
/-- C9 witness: the round-trip theorem applied to the group-1 entry and
the residue 12345. -/
theorem C9_witness :
    (⟨1, group1_modulus, group1_modulus.length, 2⟩ : modulus_info_entry_t) ∈
      modulus_info_entries ∧
    12345 < chunk_to_mpz group1_modulus ∧
    bytes_to_integer (integer_to_bytes 12345 group1_modulus.length) = 12345 :=
  ⟨by decide, by decide,
   (C9_roundtrip_at_width ⟨1, group1_modulus, group1_modulus.length, 2⟩
     (by decide) 12345 (by decide)).1⟩

end DH

namespace Allocator

theorem hupdate_same (h : heap_t) (a : Nat) (v : Option memory_hdr_t) :
    hupdate h a v a = v := by
  simp [hupdate]

theorem hupdate_ne (h : heap_t) (a : Nat) (v : Option memory_hdr_t) (x : Nat)
    (hx : x ≠ a) : hupdate h a v x = h x := by
  simp [hupdate, hx]

theorem chain_ok_congr (h h' : heap_t) :
    ∀ (l : List Nat) (prev cur : Option Nat),
      (∀ x ∈ l, h' x = h x) → chain_ok h prev cur l → chain_ok h' prev cur l := by
  intro l
  induction l with
  | nil => intro prev cur _ hc; exact hc
  | cons a rest ih =>
      intro prev cur hag hc
      simp only [chain_ok] at hc ⊢
      obtain ⟨hcur, r, hr, hn, hrest⟩ := hc
      exact ⟨hcur, r, (hag a (List.mem_cons_self a rest)).trans hr, hn,
        ih (some a) r.older (fun x hx => hag x (List.mem_cons_of_mem a hx)) hrest⟩

theorem chain_ok_split (h : heap_t) :
    ∀ (xs : List Nat) (ys : List Nat) (prev cur : Option Nat),
      chain_ok h prev cur (xs ++ ys) →
      ∃ pm cm, chain_seg h prev cur xs pm cm ∧ chain_ok h pm cm ys := by
  intro xs
  induction xs with
  | nil =>
      intro ys prev cur hc
      exact ⟨prev, cur, ⟨rfl, rfl⟩, hc⟩
  | cons a rest ih =>
      intro ys prev cur hc
      simp only [List.cons_append, chain_ok] at hc
      obtain ⟨hcur, r, hr, hn, hrest⟩ := hc
      obtain ⟨pm, cm, hseg, hok⟩ := ih ys (some a) r.older hrest
      exact ⟨pm, cm, ⟨hcur, r, hr, hn, hseg⟩, hok⟩

theorem chain_join (h : heap_t) :
    ∀ (xs : List Nat) (ys : List Nat) (prev cur pm cm : Option Nat),
      chain_seg h prev cur xs pm cm → chain_ok h pm cm ys →
      chain_ok h prev cur (xs ++ ys) := by
  intro xs
  induction xs with
  | nil =>
      intro ys prev cur pm cm hseg hok
      obtain ⟨hp, hc⟩ := hseg
      rw [List.nil_append]
      rw [hp, hc] at hok
      exact hok
  | cons a rest ih =>
      intro ys prev cur pm cm hseg hok
      simp only [chain_seg] at hseg
      obtain ⟨hcur, r, hr, hn, hseg'⟩ := hseg
      simp only [List.cons_append, chain_ok]
      exact ⟨hcur, r, hr, hn, ih ys (some a) r.older pm cm hseg' hok⟩

theorem chain_seg_last (h : heap_t) :
    ∀ (xs : List Nat) (p c pm cm : Option Nat),
      chain_seg h p c xs pm cm →
      (xs = [] ∧ pm = p ∧ cm = c) ∨
      ∃ m rm, pm = some m ∧ m ∈ xs ∧ h m = some rm ∧ rm.older = cm := by
  intro xs
  induction xs with
  | nil =>
      intro p c pm cm hseg
      exact Or.inl ⟨rfl, hseg.1, hseg.2⟩
  | cons b rest ih =>
      intro p c pm cm hseg
      simp only [chain_seg] at hseg
      obtain ⟨hcur, r, hrb, hrn, hseg'⟩ := hseg
      rcases ih (some b) r.older pm cm hseg' with ⟨hrest, hp, hc⟩ | ⟨m, rm, hpm, hm, hhm, hold⟩
      · refine Or.inr ⟨b, r, hp, List.mem_cons_self b rest, hrb, ?_⟩
        rw [← hc]
      · exact Or.inr ⟨m, rm, hpm, List.mem_cons_of_mem b hm, hhm, hold⟩

theorem report_walk_chain (h : heap_t) :
    ∀ (l : List Nat) (prev cur : Option Nat),
      chain_ok h prev cur l → report_walk h cur l.length = l := by
  intro l
  induction l with
  | nil =>
      intro prev cur hc
      rw [hc]
      rfl
  | cons a rest ih =>
      intro prev cur hc
      simp only [chain_ok] at hc
      obtain ⟨hcur, r, hr, _, hrest⟩ := hc
      rw [hcur, List.length_cons, report_walk, hr]
      exact congrArg (a :: ·) (ih (some a) r.older hrest)

end Allocator

namespace Allocator

theorem chain_seg_repoint_last (h h' : heap_t) (d : Option Nat) :
    ∀ (xs : List Nat) (p c : Option Nat) (m : Nat) (cm : Option Nat),
      chain_seg h p c xs (some m) cm → m ∈ xs → xs.Nodup →
      (∀ rm, h m = some rm → h' m = some { rm with older := d }) →
      (∀ x ∈ xs, x ≠ m → h' x = h x) →
      chain_seg h' p c xs (some m) d := by
  intro xs
  induction xs with
  | nil => intro p c m cm _ hm; cases hm
  | cons b rest ih =>
      intro p c m cm hseg hm hnd hpatch hag
      simp only [chain_seg] at hseg ⊢
      obtain ⟨hcur, r, hrb, hrn, hseg'⟩ := hseg
      cases rest with
      | nil =>
          simp only [chain_seg] at hseg'
          obtain ⟨hpm, hcm⟩ := hseg'
          obtain rfl : m = b := Option.some_inj.mp hpm
          refine ⟨hcur, { r with older := d }, hpatch r hrb, hrn, ?_⟩
          simp only [chain_seg]
          exact ⟨trivial, trivial⟩
      | cons y rest' =>
          have hm' : m ∈ y :: rest' := by
            rcases chain_seg_last h (y :: rest') (some b) r.older (some m) cm hseg'
              with ⟨habs, _, _⟩ | ⟨m', rm, hm'', hmem, _, _⟩
            · cases habs
            · obtain rfl : m' = m := (Option.some_inj.mp hm'').symm
              exact hmem
          have hbm : b ≠ m := by
            intro he
            exact (List.nodup_cons.mp hnd).1 (he ▸ hm')
          refine ⟨hcur, r, (hag b (List.mem_cons_self b _) hbm).trans hrb, hrn, ?_⟩
          exact ih (some b) r.older m cm hseg' hm' (List.nodup_cons.mp hnd).2 hpatch
            (fun x hx hxm => hag x (List.mem_cons_of_mem b hx) hxm)

theorem wf_allocate (st : private_allocator_t) (l : List Nat)
    (a file line size : Nat) (hwf : wf st l) (ha : a ∉ l) :
    wf (allocate_special st a file line size) (a :: l) := by
  obtain ⟨hchain, hnd⟩ := hwf
  refine ⟨?_, List.nodup_cons.mpr ⟨ha, hnd⟩⟩
  cases hal : st.allocations with
  | none =>
      cases l with
      | cons x rest =>
          rw [hal] at hchain
          simp only [chain_ok] at hchain
          exact absurd hchain.1 (by simp)
      | nil =>
          have hA : (allocate_special st a file line size).heap a =
              some { filename := file, line := line, size_of_memory := size,
                     older := none, newer := none } := by
            simp [allocate_special, hupdate, hal]
          have hAl : (allocate_special st a file line size).allocations = some a := by
            simp [allocate_special, hal]
          rw [hAl]
          simp only [chain_ok]
          exact ⟨trivial, _, hA, rfl, rfl⟩
  | some b =>
      rw [hal] at hchain
      cases l with
      | nil =>
          simp only [chain_ok] at hchain
          exact absurd hchain (by simp)
      | cons b' rest =>
          simp only [chain_ok] at hchain
          obtain ⟨hb, rold, hrold, hrnew, hrest⟩ := hchain
          obtain rfl : b = b' := Option.some_inj.mp hb
          have hab : a ≠ b := fun he => ha (he ▸ List.mem_cons_self b rest)
          have hA : (allocate_special st a file line size).heap a =
              some { filename := file, line := line, size_of_memory := size,
                     older := some b, newer := none } := by
            simp [allocate_special, hupdate, hal, hrold, hab, Ne.symm hab]
          have hB : (allocate_special st a file line size).heap b =
              some { rold with newer := some a } := by
            simp [allocate_special, hupdate, hal, hrold, hab, Ne.symm hab]
          have hX : ∀ x, x ≠ a → x ≠ b →
              (allocate_special st a file line size).heap x = st.heap x := by
            intro x hxa hxb
            simp [allocate_special, hupdate, hal, hrold, hab, Ne.symm hab, hxa, hxb]
          have hAl : (allocate_special st a file line size).allocations = some a := by
            simp [allocate_special, hal, hrold, hupdate, hab, Ne.symm hab]
          rw [hAl]
          simp only [chain_ok]
          refine ⟨trivial, _, hA, rfl, ?_⟩
          refine ⟨rfl, _, hB, rfl, ?_⟩
          apply chain_ok_congr st.heap _ rest (some b) rold.older _ hrest
          intro x hx
          have hxa : x ≠ a := fun he => ha (he ▸ List.mem_cons_of_mem b hx)
          have hxb : x ≠ b := fun he => (List.nodup_cons.mp hnd).1 (he ▸ hx)
          exact hX x hxa hxb

end Allocator

namespace Allocator

theorem wf_free (st : private_allocator_t) (l : List Nat) (a : Nat)
    (hwf : wf st l) (ha : a ∈ l) : wf (free_block st a) (l.erase a) := by
  obtain ⟨hchain, hnd⟩ := hwf
  obtain ⟨xs, ys, rfl⟩ := List.append_of_mem ha
  obtain ⟨hnd_xs, hnd_ays, hdisj⟩ := List.nodup_append.mp hnd
  obtain ⟨hays, hnd_ys⟩ := List.nodup_cons.mp hnd_ays
  have haxs : a ∉ xs := fun hx => hdisj hx (List.mem_cons_self a ys)
  have herase : (xs ++ a :: ys).erase a = xs ++ ys := by
    rw [List.erase_append_right _ haxs, List.erase_cons_head]
  rw [herase]
  refine ⟨?_, List.nodup_append.mpr ⟨hnd_xs, hnd_ys,
    fun x hx hx' => hdisj hx (List.mem_cons_of_mem a hx')⟩⟩
  obtain ⟨pm, cm, hseg, hok⟩ :=
    chain_ok_split st.heap xs (a :: ys) none st.allocations hchain
  simp only [chain_ok] at hok
  obtain ⟨hcm, r, hra, hrn, hys⟩ := hok
  rcases chain_seg_last st.heap xs none st.allocations pm cm hseg with
    ⟨rfl, hpm, hcm'⟩ | ⟨m, rm, hpm, hm_mem, hhm, hold_cm⟩
  · -- the freed block is the head of the list
    rw [hpm] at hrn
    cases ys with
    | nil =>
        have holder : r.older = none := hys
        have hfal : (free_block st a).allocations = none := by
          simp [free_block, hra, holder, hrn]
        show chain_ok (free_block st a).heap none (free_block st a).allocations []
        exact hfal
    | cons o ys' =>
        simp only [chain_ok] at hys
        obtain ⟨holder, ro, hro, hronew, hys'⟩ := hys
        have hoa : o ≠ a := fun he => hays (he ▸ List.mem_cons_self o ys')
        have hfo : (free_block st a).heap o = some { ro with newer := none } := by
          simp [free_block, hupdate, hra, holder, hro, hrn, hoa, Ne.symm hoa]
        have hfx : ∀ x, x ≠ a → x ≠ o → (free_block st a).heap x = st.heap x := by
          intro x hxa hxo
          simp [free_block, hupdate, hra, holder, hro, hrn, hxa, hxo]
        have hfal : (free_block st a).allocations = some o := by
          simp [free_block, hra, holder, hro, hrn]
        simp only [List.nil_append]
        rw [hfal]
        simp only [chain_ok]
        refine ⟨trivial, _, hfo, rfl, ?_⟩
        refine chain_ok_congr st.heap _ ys' (some o) ro.older ?_ hys'
        intro x hx
        have hxa : x ≠ a := fun he => hays (he ▸ List.mem_cons_of_mem o hx)
        have hxo : x ≠ o := fun he => (List.nodup_cons.mp hnd_ys).1 (he ▸ hx)
        exact hfx x hxa hxo
  · -- the freed block has a newer neighbour m, the last node of xs
    rw [hpm] at hrn
    rw [hcm] at hold_cm
    rw [hpm] at hseg
    have hma : m ≠ a := fun he => haxs (he ▸ hm_mem)
    cases ys with
    | nil =>
        have holder : r.older = none := hys
        have hfm : ∀ rm', st.heap m = some rm' →
            (free_block st a).heap m = some { rm' with older := r.older } := by
          intro rm' hrm'
          rw [hhm] at hrm'
          obtain rfl : rm = rm' := Option.some_inj.mp hrm'
          simp [free_block, hupdate, hra, holder, hrn, hhm, hma, Ne.symm hma]
        have hfx : ∀ x, x ≠ a → x ≠ m → (free_block st a).heap x = st.heap x := by
          intro x hxa hxm
          simp [free_block, hupdate, hra, holder, hrn, hhm, hxa, hxm, hma, Ne.symm hma]
        have hfal : (free_block st a).allocations = st.allocations := by
          simp [free_block, hra, holder, hrn, hhm, hma, Ne.symm hma, hupdate]
        rw [hfal]
        refine chain_join _ xs [] none st.allocations (some m) r.older ?_ ?_
        · refine chain_seg_repoint_last st.heap _ r.older xs none st.allocations m cm
            hseg hm_mem hnd_xs hfm ?_
          intro x hx hxm
          exact hfx x (fun he => haxs (he ▸ hx)) hxm
        · exact holder
    | cons o ys' =>
        simp only [chain_ok] at hys
        obtain ⟨holder, ro, hro, hronew, hys'⟩ := hys
        have hoa : o ≠ a := fun he => hays (he ▸ List.mem_cons_self o ys')
        have hom : o ≠ m := by
          intro he
          have hmem : m ∈ a :: o :: ys' := by
            rw [← he]
            exact List.mem_cons_of_mem a (List.mem_cons_self o ys')
          exact hdisj hm_mem hmem
        have hfm : ∀ rm', st.heap m = some rm' →
            (free_block st a).heap m = some { rm' with older := r.older } := by
          intro rm' hrm'
          rw [hhm] at hrm'
          obtain rfl : rm = rm' := Option.some_inj.mp hrm'
          simp [free_block, hupdate, hra, holder, hro, hrn, hhm, hma, Ne.symm hma,
            hom, Ne.symm hom, hoa, Ne.symm hoa]
        have hfo : (free_block st a).heap o = some { ro with newer := some m } := by
          simp [free_block, hupdate, hra, holder, hro, hrn, hhm, hma, Ne.symm hma,
            hom, Ne.symm hom, hoa, Ne.symm hoa]
        have hfx : ∀ x, x ≠ a → x ≠ o → x ≠ m →
            (free_block st a).heap x = st.heap x := by
          intro x hxa hxo hxm
          simp [free_block, hupdate, hra, holder, hro, hrn, hhm, hxa, hxo, hxm,
            hma, Ne.symm hma, hom, Ne.symm hom, hoa, Ne.symm hoa]
        have hfal : (free_block st a).allocations = st.allocations := by
          simp [free_block, hupdate, hra, holder, hro, hrn, hhm, hma, Ne.symm hma,
            hom, Ne.symm hom, hoa, Ne.symm hoa]
        rw [hfal]
        refine chain_join _ xs (o :: ys') none st.allocations (some m) r.older ?_ ?_
        · refine chain_seg_repoint_last st.heap _ r.older xs none st.allocations m cm
            hseg hm_mem hnd_xs hfm ?_
          intro x hx hxm
          have hxa : x ≠ a := fun he => haxs (he ▸ hx)
          have hxo : x ≠ o := fun he =>
            hdisj (he ▸ hx) (List.mem_cons_of_mem a (List.mem_cons_self o ys'))
          exact hfx x hxa hxo hxm
        · rw [holder]
          simp only [chain_ok]
          refine ⟨trivial, _, hfo, rfl, ?_⟩
          refine chain_ok_congr st.heap _ ys' (some o) ro.older ?_ hys'
          intro x hx
          have hxa : x ≠ a := fun he => hays (he ▸ List.mem_cons_of_mem o hx)
          have hxo : x ≠ o := fun he => (List.nodup_cons.mp hnd_ys).1 (he ▸ hx)
          have hxm : x ≠ m := by
            intro he
            have hmem : m ∈ a :: o :: ys' := by
              rw [← he]
              exact List.mem_cons_of_mem a (List.mem_cons_of_mem o hx)
            exact hdisj hm_mem hmem
          exact hfx x hxa hxo hxm

end Allocator

namespace Allocator

theorem wf_step (st : private_allocator_t) (l : List Nat) (op : alloc_op)
    (hwf : wf st l) (hop : op_legal l op = true) :
    wf (alloc_step st op) (outs_step l op) := by
  cases op with
  | allocate a file line size =>
      cases a with
      | none => exact hwf
      | some a =>
          have ha : a ∉ l := by simpa [op_legal] using hop
          exact wf_allocate st l a file line size hwf ha
  | allocate_as_chunk a file line size =>
      cases a with
      | none => exact hwf
      | some a =>
          have ha : a ∉ l := by simpa [op_legal] using hop
          exact wf_allocate st l a file line size hwf ha
  | clone_bytes from_ptr a file line size =>
      cases from_ptr with
      | none => exact hwf
      | some s0 =>
          cases a with
          | none => exact hwf
          | some a =>
              have ha : a ∉ l := by simpa [op_legal] using hop
              exact wf_allocate st l a file line size hwf ha
  | reallocate old a file line size =>
      cases old with
      | none => exact hwf
      | some old =>
          cases a with
          | none =>
              have hold : old ∈ l := by simpa [op_legal] using hop
              exact wf_free st l old hwf hold
          | some a =>
              obtain ⟨hold, ha⟩ : old ∈ l ∧ a ∉ l := by
                simpa [op_legal] using hop
              exact wf_free _ (a :: l) old
                (wf_allocate st l a file line size hwf ha)
                (List.mem_cons_of_mem a hold)
  | free_pointer q =>
      cases q with
      | none => exact hwf
      | some q =>
          have hq : q ∈ l := by simpa [op_legal] using hop
          exact wf_free st l q hwf hq

theorem wf_run :
    ∀ (ops : List alloc_op) (st : private_allocator_t) (l : List Nat),
      wf st l → legal l ops = true → wf (run_ops st ops) (outs l ops) := by
  intro ops
  induction ops with
  | nil => intro st l hwf _; exact hwf
  | cons op rest ih =>
      intro st l hwf hleg
      simp only [legal, Bool.and_eq_true] at hleg
      exact ih (alloc_step st op) (outs_step l op) (wf_step st l op hwf hleg.1) hleg.2

/-- C10: after every legal finite sequence of allocator calls starting
from the static initial allocator, the global allocations list is a
well-formed doubly linked list (the head's `newer` link is null, and
every node's `older` node points back at it through `newer`) whose
nodes are exactly the allocations handed out and not yet freed, newest
first and without duplicates, and the leak-report traversal following
`older` links visits each outstanding allocation exactly once. -/
theorem C10_allocations_list_wf (ops : List alloc_op) (h : legal [] ops = true) :
    wf (run_ops initial_allocator ops) (outs [] ops) ∧
    (outs [] ops).Nodup ∧
    report_walk (run_ops initial_allocator ops).heap
      (run_ops initial_allocator ops).allocations (outs [] ops).length =
      outs [] ops := by
  have hwf := wf_run ops initial_allocator [] ⟨rfl, List.nodup_nil⟩ h
  exact ⟨hwf, hwf.2, report_walk_chain _ _ none _ hwf.1⟩

/-- C10 witness: the invariant theorem applied to a concrete sequence
of two allocations followed by a free. -/
theorem C10_witness :
    legal [] sample_ops = true ∧
    (wf (run_ops initial_allocator sample_ops) (outs [] sample_ops) ∧
     (outs [] sample_ops).Nodup ∧
     report_walk (run_ops initial_allocator sample_ops).heap
       (run_ops initial_allocator sample_ops).allocations (outs [] sample_ops).length =
       outs [] sample_ops) :=
  ⟨by decide, C10_allocations_list_wf sample_ops (by decide)⟩

end Allocator
